import Mathlib

/-!
Verification of the Railway Home Assistant integration's data-aggregation core
(`custom_components/railway/api.py` and `coordinator.py`).

The Python client is shallowly embedded: decoded JSON bodies become the
inductive type `JVal`; every fallible operation returns `Except Err α`;
Python's exception classes `RailwayApiError` / `RailwayAuthError` /
`RailwayConnectionError` become the error kinds `Err.api` / `Err.auth` /
`Err.conn`, and `except RailwayApiError` clauses absorb exactly those three
kinds (the two subclasses included), while Python runtime errors
(`KeyError` / `TypeError` / `AttributeError`, modelled as `Err.py`) and
transport exceptions outside `aiohttp.ClientError` (modelled as `Err.raw`)
pass through them.  JSON numbers are modelled with exact integer arithmetic;
the aggregation claims verified here are about which values are summed, not
about float rounding.
-/

/-- Decoded JSON value, as manipulated by the Python client.  Object fields
keep insertion order, like Python dicts; keys are arbitrary values because the
client also builds dicts keyed by ids taken from responses. -/
inductive JVal where
  | null
  | bool (b : Bool)
  | num (n : Int)
  | str (s : String)
  | arr (xs : List JVal)
  | obj (fs : List (JVal × JVal))

/-- Structural equality of JSON values (Python `==` on decoded JSON). -/
def JVal.beq : JVal → JVal → Bool
  | .null, .null => true
  | .bool x, .bool y => x == y
  | .num x, .num y => x == y
  | .str x, .str y => x == y
  | .arr [], .arr [] => true
  | .arr (x :: xs), .arr (y :: ys) => x.beq y && (JVal.arr xs).beq (.arr ys)
  | .obj [], .obj [] => true
  | .obj ((k, v) :: fs), .obj ((k', v') :: gs) =>
      k.beq k' && v.beq v' && (JVal.obj fs).beq (.obj gs)
  | _, _ => false

theorem JVal.beq_arr_iff (xs ys : List JVal)
    (hf : ∀ x ∈ xs, ∀ y, JVal.beq x y = true ↔ x = y) :
    JVal.beq (.arr xs) (.arr ys) = true ↔ xs = ys := by
  induction xs generalizing ys with
  | nil => cases ys <;> simp [JVal.beq]
  | cons x xs ih =>
    cases ys with
    | nil => simp [JVal.beq]
    | cons y ys =>
      have hx := hf x (by simp)
      have hrest : ∀ x ∈ xs, ∀ y, JVal.beq x y = true ↔ x = y := by
        intro a ha; exact hf a (by simp [ha])
      simp [JVal.beq, Bool.and_eq_true, hx, ih ys hrest]

theorem JVal.beq_obj_iff (fs gs : List (JVal × JVal))
    (hf : ∀ p ∈ fs, (∀ y, JVal.beq p.1 y = true ↔ p.1 = y) ∧
                    (∀ y, JVal.beq p.2 y = true ↔ p.2 = y)) :
    JVal.beq (.obj fs) (.obj gs) = true ↔ fs = gs := by
  induction fs generalizing gs with
  | nil => cases gs <;> simp [JVal.beq]
  | cons p fs ih =>
    cases gs with
    | nil => obtain ⟨k, v⟩ := p; simp [JVal.beq]
    | cons q gs =>
      obtain ⟨k, v⟩ := p
      obtain ⟨k', v'⟩ := q
      have hk := (hf (k, v) (by simp)).1
      have hv := (hf (k, v) (by simp)).2
      have hrest : ∀ p ∈ fs, (∀ y, JVal.beq p.1 y = true ↔ p.1 = y) ∧
          (∀ y, JVal.beq p.2 y = true ↔ p.2 = y) := by
        intro a ha; exact hf a (by simp [ha])
      simp only [Prod.fst, Prod.snd] at hk hv
      simp [JVal.beq, Bool.and_eq_true, hk k', hv v', ih gs hrest, and_assoc]

theorem JVal.beq_iff_aux :
    ∀ (n : Nat) (a b : JVal), sizeOf a ≤ n →
      (JVal.beq a b = true ↔ a = b) := by
  intro n
  induction n with
  | zero =>
    intro a b h
    exfalso
    cases a <;> simp only [JVal.null.sizeOf_spec, JVal.bool.sizeOf_spec,
      JVal.num.sizeOf_spec, JVal.str.sizeOf_spec, JVal.arr.sizeOf_spec,
      JVal.obj.sizeOf_spec] at h <;> omega
  | succ n ih =>
    intro a b h
    cases a with
    | null => cases b <;> simp [JVal.beq]
    | bool x => cases b <;> simp [JVal.beq]
    | num x => cases b <;> simp [JVal.beq]
    | str x => cases b <;> simp [JVal.beq]
    | arr xs =>
      have hf : ∀ x ∈ xs, ∀ y, JVal.beq x y = true ↔ x = y := by
        intro x hx y
        apply ih
        have hlt := List.sizeOf_lt_of_mem hx
        simp only [JVal.arr.sizeOf_spec] at h
        omega
      cases b with
      | arr ys =>
        rw [JVal.beq_arr_iff xs ys hf]
        constructor
        · intro hh; rw [hh]
        · intro hh; cases hh; rfl
      | null => simp [JVal.beq]
      | bool y => simp [JVal.beq]
      | num y => simp [JVal.beq]
      | str y => simp [JVal.beq]
      | obj gs => cases xs <;> simp [JVal.beq]
    | obj fs =>
      have hf : ∀ p ∈ fs, (∀ y, JVal.beq p.1 y = true ↔ p.1 = y) ∧
          (∀ y, JVal.beq p.2 y = true ↔ p.2 = y) := by
        intro p hp
        have hlt := List.sizeOf_lt_of_mem hp
        simp only [JVal.obj.sizeOf_spec] at h
        obtain ⟨k, v⟩ := p
        simp only [Prod.mk.sizeOf_spec] at hlt
        constructor
        · intro y; apply ih; simp only [Prod.fst]; omega
        · intro y; apply ih; simp only [Prod.snd]; omega
      cases b with
      | obj gs =>
        rw [JVal.beq_obj_iff fs gs hf]
        constructor
        · intro hh; rw [hh]
        · intro hh; cases hh; rfl
      | null => simp [JVal.beq]
      | bool y => simp [JVal.beq]
      | num y => simp [JVal.beq]
      | str y => simp [JVal.beq]
      | arr ys => cases fs <;> simp [JVal.beq]

theorem JVal.beq_iff (a b : JVal) : JVal.beq a b = true ↔ a = b :=
  JVal.beq_iff_aux (sizeOf a) a b (Nat.le_refl _)

theorem JVal.beq_self (a : JVal) : JVal.beq a a = true :=
  (JVal.beq_iff a a).2 rfl

instance : DecidableEq JVal := fun a b =>
  decidable_of_iff (JVal.beq a b = true) (JVal.beq_iff a b)

theorem JVal.beq_eq_false (a b : JVal) (h : a ≠ b) :
    JVal.beq a b = false := by
  cases hb : JVal.beq a b
  · rfl
  · exact absurd ((JVal.beq_iff a b).1 hb) h

/-- Python truthiness of a JSON value (`bool(x)`): null, `False`, zero, the
empty string, the empty list and the empty dict are falsy. -/
def JVal.truthy : JVal → Bool
  | .null => false
  | .bool b => b
  | .num n => n != 0
  | .str s => s != ""
  | .arr xs => !xs.isEmpty
  | .obj fs => !fs.isEmpty

/-- Lookup in an association list (Python `dict` access); first match wins. -/
def assocLookup : List (JVal × JVal) → JVal → Option JVal
  | [], _ => none
  | (k', v) :: rest, k => if JVal.beq k' k then some v else assocLookup rest k

/-- Python `d[k] = v`: replace the value at an existing key in place, append
a new key at the end (dicts preserve insertion order). -/
def assocSet : List (JVal × JVal) → JVal → JVal → List (JVal × JVal)
  | [], k, v => [(k, v)]
  | (k', v') :: rest, k, v =>
    if JVal.beq k' k then (k', v) :: rest else (k', v') :: assocSet rest k v

theorem assocLookup_set_self (fs : List (JVal × JVal)) (k v : JVal) :
    assocLookup (assocSet fs k v) k = some v := by
  induction fs with
  | nil => simp [assocSet, assocLookup, JVal.beq_self]
  | cons p rest ih =>
    obtain ⟨k', v'⟩ := p
    by_cases h : k' = k
    · subst h; simp [assocSet, assocLookup, JVal.beq_self]
    · simp [assocSet, assocLookup, JVal.beq_eq_false k' k h, ih]

theorem assocLookup_set_ne (fs : List (JVal × JVal)) (k v k' : JVal)
    (h : k ≠ k') : assocLookup (assocSet fs k v) k' = assocLookup fs k' := by
  induction fs with
  | nil => simp [assocSet, assocLookup, JVal.beq_eq_false k k' h]
  | cons p rest ih =>
    obtain ⟨k0, v0⟩ := p
    by_cases h0 : k0 = k
    · have hb : JVal.beq k0 k' = false :=
        JVal.beq_eq_false k0 k' (by rw [h0]; exact h)
      have hs : JVal.beq k0 k = true := by rw [h0]; exact JVal.beq_self k
      simp [assocSet, hs, assocLookup, hb]
    · have hb : JVal.beq k0 k = false := JVal.beq_eq_false k0 k h0
      simp [assocSet, hb, assocLookup, ih]

theorem assocSet_fresh (fs : List (JVal × JVal)) (k v : JVal)
    (h : assocLookup fs k = none) : assocSet fs k v = fs ++ [(k, v)] := by
  induction fs with
  | nil => simp [assocSet]
  | cons p rest ih =>
    obtain ⟨k0, v0⟩ := p
    by_cases h0 : k0 = k
    · subst h0; simp [assocLookup, JVal.beq_self] at h
    · simp [assocLookup, JVal.beq_eq_false k0 k h0] at h
      simp [assocSet, JVal.beq_eq_false k0 k h0, ih h]

theorem assocLookup_append_right (fs gs : List (JVal × JVal)) (k : JVal)
    (h : assocLookup fs k = none) :
    assocLookup (fs ++ gs) k = assocLookup gs k := by
  induction fs with
  | nil => simp
  | cons p rest ih =>
    obtain ⟨k0, v0⟩ := p
    by_cases h0 : k0 = k
    · subst h0; simp [assocLookup, JVal.beq_self] at h
    · simp [assocLookup, JVal.beq_eq_false k0 k h0] at h
      simp [assocLookup, JVal.beq_eq_false k0 k h0, ih h]

theorem assocLookup_isSome_append_left (fs gs : List (JVal × JVal)) (k : JVal)
    (h : (assocLookup fs k).isSome = true) :
    (assocLookup (fs ++ gs) k).isSome = true := by
  induction fs with
  | nil => simp [assocLookup] at h
  | cons p rest ih =>
    obtain ⟨k0, v0⟩ := p
    by_cases h0 : k0 = k
    · subst h0; simp [assocLookup, JVal.beq_self]
    · simp [assocLookup, JVal.beq_eq_false k0 k h0] at h ⊢
      exact ih h

/-- Keys of an association list, in order. -/
def assocKeys (fs : List (JVal × JVal)) : List JVal := fs.map Prod.fst

theorem assocLookup_none_of_not_mem_keys (fs : List (JVal × JVal)) (k : JVal)
    (h : k ∉ assocKeys fs) : assocLookup fs k = none := by
  induction fs with
  | nil => simp [assocLookup]
  | cons p rest ih =>
    obtain ⟨k0, v0⟩ := p
    simp only [assocKeys, List.map_cons, List.mem_cons] at h
    push_neg at h
    rw [assocLookup, if_neg]
    · exact ih (by simpa [assocKeys] using h.2)
    · simp [JVal.beq_eq_false k0 k (fun he => h.1 he.symm)]

theorem assocKeys_set_fresh (fs : List (JVal × JVal)) (k v : JVal)
    (h : assocLookup fs k = none) :
    assocKeys (assocSet fs k v) = assocKeys fs ++ [k] := by
  rw [assocSet_fresh fs k v h]
  simp [assocKeys]

/-- Python runtime errors raised by the client's own dict/list manipulation
(`KeyError`, and `TypeError`/`AttributeError`, which are not distinguished). -/
inductive PyErr where
  | keyError (k : String)
  | typeError
deriving DecidableEq

/-- Error kinds that can escape a client call.  `auth`, `conn` and `api`
model `RailwayAuthError`, `RailwayConnectionError` and `RailwayApiError`;
`py` models a Python runtime error; `raw` models a transport exception that
is not an instance of `aiohttp.ClientError` (such as `asyncio.TimeoutError`
raised when the 30-second total timeout expires). -/
inductive Err where
  | auth (msg : String)
  | conn (msg : String)
  | api (msg : String)
  | py (e : PyErr)
  | raw (msg : String)
deriving DecidableEq

/-- Whether an exception is an instance of the `RailwayApiError` class.
`RailwayAuthError` and `RailwayConnectionError` are subclasses of
`RailwayApiError` in `api.py`, so an `except RailwayApiError` clause catches
all three kinds. -/
def Err.isRailwayApiError : Err → Bool
  | .auth _ => true
  | .conn _ => true
  | .api _ => true
  | .py _ => false
  | .raw _ => false

/-- Python `try: body except RailwayApiError: fallback`: the fallback runs
exactly when the body fails with one of the three `RailwayApiError` kinds;
other errors propagate. -/
def tryRailway {α : Type} : Except Err α → Except Err α → Except Err α
  | .ok a, _ => .ok a
  | .error e, fb => if e.isRailwayApiError then fb else .error e

theorem tryRailway_error {α : Type} (body fb : Except Err α) (e : Err)
    (h : tryRailway body fb = .error e) :
    (body = .error e ∧ e.isRailwayApiError = false) ∨ fb = .error e := by
  cases body with
  | ok a => rw [tryRailway] at h; exact absurd h (by simp)
  | error e0 =>
    rw [tryRailway] at h
    cases hra : e0.isRailwayApiError with
    | true =>
      rw [hra] at h
      simp at h
      exact Or.inr h
    | false =>
      rw [hra] at h
      simp at h
      exact Or.inl ⟨by rw [h], by rw [← h]; exact hra⟩

theorem tryRailway_ok {α : Type} (body fb : Except Err α) (a : α)
    (h : tryRailway body fb = .ok a) :
    body = .ok a ∨
      ∃ e, body = .error e ∧ e.isRailwayApiError = true ∧ fb = .ok a := by
  cases body with
  | ok a0 =>
    rw [tryRailway] at h
    exact Or.inl h
  | error e0 =>
    rw [tryRailway] at h
    cases hra : e0.isRailwayApiError with
    | true =>
      rw [hra] at h
      simp at h
      exact Or.inr ⟨e0, rfl, hra, h⟩
    | false =>
      rw [hra] at h
      simp at h

/-- Python `x.get(k, default)` on a decoded JSON value: only dicts have
`.get`; anything else raises (`AttributeError`, modelled as `typeError`). -/
def JVal.pyGet : JVal → String → JVal → Except Err JVal
  | .obj fs, k, d => .ok ((assocLookup fs (.str k)).getD d)
  | _, _, _ => .error (.py .typeError)

/-- Python `x[k]` with a string key: `KeyError` on a missing key,
`TypeError` on a non-dict. -/
def JVal.pyIndex : JVal → String → Except Err JVal
  | .obj fs, k =>
    match assocLookup fs (.str k) with
    | some v => .ok v
    | none => .error (.py (.keyError k))
  | _, _ => .error (.py .typeError)

/-- Python `x[k] = v` on a decoded JSON value. -/
def JVal.pySet : JVal → JVal → JVal → Except Err JVal
  | .obj fs, k, v => .ok (.obj (assocSet fs k v))
  | _, _, _ => .error (.py .typeError)

/-- Python `for x in v`: lists iterate their elements, dicts their keys,
strings their characters; other values raise `TypeError`. -/
def JVal.pyIter : JVal → Except Err (List JVal)
  | .arr xs => .ok xs
  | .obj fs => .ok (fs.map Prod.fst)
  | .str s => .ok (s.data.map (fun c => .str (String.mk [c])))
  | _ => .error (.py .typeError)

/-- Python `acc += v` on a numeric accumulator: numbers add, booleans count
as 0/1 (`bool` is an `int` subclass), anything else raises `TypeError`. -/
def pyAddNum (acc : Int) : JVal → Except Err Int
  | .num n => .ok (acc + n)
  | .bool b => .ok (acc + if b then 1 else 0)
  | _ => .error (.py .typeError)

/-- Python `v or 0`, as used for the `... or 0` defaults in `api.py`. -/
def JVal.orZero (v : JVal) : JVal := if v.truthy then v else .num 0

/-- Approximate Python `str()` of a decoded JSON value.  It is used only as
the fallback for a GraphQL error object without a `"message"` field; no
verified claim depends on its exact output. -/
def pyStr : JVal → String
  | .null => "None"
  | .bool b => if b then "True" else "False"
  | .num n => toString n
  | .str s => "'" ++ s ++ "'"
  | .arr xs =>
      "[" ++ String.intercalate ", " (xs.attach.map (fun x => pyStr x.1)) ++ "]"
  | .obj fs =>
      "\x7b" ++ String.intercalate ", "
        (fs.attach.map (fun p => pyStr p.1.1 ++ ": " ++ pyStr p.1.2)) ++ "\x7d"
decreasing_by
  · have := List.sizeOf_lt_of_mem x.2
    simp only [JVal.arr.sizeOf_spec]
    omega
  · have := List.sizeOf_lt_of_mem p.2
    obtain ⟨⟨k, v⟩, hp⟩ := p
    simp only [Prod.mk.sizeOf_spec] at this
    simp only [JVal.obj.sizeOf_spec]
    omega
  · have := List.sizeOf_lt_of_mem p.2
    obtain ⟨⟨k, v⟩, hp⟩ := p
    simp only [Prod.mk.sizeOf_spec] at this
    simp only [JVal.obj.sizeOf_spec]
    omega

/-- Substring test on character lists: is the first list a prefix of the
second? -/
def charsPrefixOf : List Char → List Char → Bool
  | [], _ => true
  | _ :: _, [] => false
  | c :: cs, d :: ds => c == d && charsPrefixOf cs ds

/-- Substring test on character lists: does the first list occur inside the
second? -/
def charsInfixOf : List Char → List Char → Bool
  | pat, [] => pat.isEmpty
  | pat, c :: rest => charsPrefixOf pat (c :: rest) || charsInfixOf pat rest

/-- Python `pat in s` on strings. -/
def strContains (s pat : String) : Bool := charsInfixOf pat.data s.data

/-- Python `s.lower()` (ASCII case mapping, which covers every string the
client compares). -/
def strLower (s : String) : String := String.mk (s.data.map Char.toLower)

/-- The auth-substring test applied to each GraphQL error message
(`"auth" in msg.lower() or "unauthorized" in msg.lower() or
"not authenticated" in msg.lower()`). -/
def isAuthMessage (msg : String) : Bool :=
  strContains (strLower msg) "auth" ||
    strContains (strLower msg) "unauthorized" ||
    strContains (strLower msg) "not authenticated"

/-- One GraphQL error's display text: `e.get("message", str(e))`, which must
be a string because the messages are joined with `"; ".join(...)`. -/
def errMessageOf (e : JVal) : Except Err String := do
  let m ← e.pyGet "message" (.str (pyStr e))
  match m with
  | .str s => .ok s
  | _ => .error (.py .typeError)

/-- Outcome of the HTTP POST for one query, as seen by `_execute_query`:
either a transport-layer exception (with its `aiohttp.ClientError`
class membership) or a response with status, body text, and the body's JSON
parse (`none` when parsing fails). -/
inductive HttpOutcome where
  | exc (isClientError : Bool) (msg : String)
  | resp (status : Nat) (text : String) (json : Option JVal)

/-- Python `response_text[:500]`: the first 500 characters. -/
def pySlice (s : String) (n : Nat) : String := String.mk (s.data.take n)

/-- The body excerpt used in non-200 `ApiError` messages:
`response_text[:500] if len(response_text) > 500 else response_text`. -/
def truncateBody (s : String) : String :=
  if s.length > 500 then pySlice s 500 else s

/-- Embedding of `RailwayApiClient._execute_query` (`api.py` lines 204-269):
status mapping, JSON parsing, GraphQL `errors` classification, and wrapping
of `aiohttp.ClientError` as `RailwayConnectionError`.  A decoded body that is
not a JSON object is modelled as a `TypeError`. -/
def execute_query (o : HttpOutcome) : Except Err JVal :=
  match o with
  | .exc isCE m =>
      if isCE then .error (.conn ("Connection error: " ++ m))
      else .error (.raw m)
  | .resp status text json =>
      if status == 401 then .error (.auth "Invalid API token")
      else if status == 403 then .error (.auth "Access denied")
      else if status != 200 then
        .error (.api ("API request failed with status " ++ toString status ++
          ": " ++ truncateBody text))
      else
        match json with
        | none => .error (.api "Invalid JSON response")
        | some (.obj fs) =>
          match assocLookup fs (.str "errors") with
          | some errsVal => do
            let errs ← errsVal.pyIter
            let msgs ← errs.mapM errMessageOf
            let joined := String.intercalate "; " msgs
            if msgs.any isAuthMessage then Except.error (Err.auth joined)
            else Except.error (Err.api ("GraphQL errors: " ++ joined))
          | none => .ok ((assocLookup fs (.str "data")).getD (.obj []))
        | some _ => .error (.py .typeError)

/-- Embedding of `async_get_me`: `data.get("me", {})`. -/
def async_get_me (h : HttpOutcome) : Except Err JVal := do
  let data ← execute_query h
  data.pyGet "me" (.obj [])

/-- Embedding of `async_get_me_with_workspaces`: `data.get("me", {})` for the
combined identity+workspaces query. -/
def async_get_me_with_workspaces (h : HttpOutcome) : Except Err JVal := do
  let data ← execute_query h
  data.pyGet "me" (.obj [])

/-- Embedding of `async_get_projects`:
`[edge["node"] for edge in data.get("projects", {}).get("edges", [])]`. -/
def async_get_projects (h : HttpOutcome) : Except Err (List JVal) := do
  let data ← execute_query h
  let projectsV ← data.pyGet "projects" (.obj [])
  let edgesV ← projectsV.pyGet "edges" (.arr [])
  let edges ← edgesV.pyIter
  edges.mapM (fun e => e.pyIndex "node")

/-- Embedding of `async_get_deployments`: flattens the latest deployment of
each service, tagging it with the service's name and id. -/
def async_get_deployments (h : HttpOutcome) : Except Err (List JVal) := do
  let data ← execute_query h
  let project ← data.pyGet "project" (.obj [])
  let servicesContainer ← project.pyGet "services" (.obj [])
  let servicesV ← servicesContainer.pyGet "edges" (.arr [])
  let services ← servicesV.pyIter
  services.foldlM (fun deps service_edge => do
    let service ← service_edge.pyIndex "node"
    let depContainer ← service.pyGet "deployments" (.obj [])
    let depEdgesV ← depContainer.pyGet "edges" (.arr [])
    let depEdges ← depEdgesV.pyIter
    depEdges.foldlM (fun deps dep_edge => do
      let deployment ← dep_edge.pyIndex "node"
      let sname ← service.pyIndex "name"
      let deployment ← deployment.pySet (.str "service_name") sname
      let sid ← service.pyIndex "id"
      let deployment ← deployment.pySet (.str "service_id") sid
      pure (deps ++ [deployment])) deps) []

/-- Body of `async_validate_token`'s `try` block:
`me = await self.async_get_me(); return bool(me.get("id"))`. -/
def validate_token_inner (h : HttpOutcome) : Except Err Bool := do
  let me ← async_get_me h
  let idv ← me.pyGet "id" .null
  pure idv.truthy

/-- Embedding of `async_validate_token`: fetch user info and report whether
it carries a truthy `"id"`; any `RailwayApiError` (subclasses included)
yields `False`. -/
def async_validate_token (h : HttpOutcome) : Except Err Bool :=
  tryRailway (validate_token_inner h) (.ok false)

/-- Embedding of `async_get_referral_info`: `data.get("referralInfo", {})`. -/
def async_get_referral_info (h : HttpOutcome) : Except Err JVal := do
  let data ← execute_query h
  data.pyGet "referralInfo" (.obj [])

/-- Embedding of `async_get_workspace_templates`:
`[edge["node"] for edge in data.get("workspaceTemplates", {}).get("edges", [])]`. -/
def async_get_workspace_templates (h : HttpOutcome) : Except Err (List JVal) := do
  let data ← execute_query h
  let wtV ← data.pyGet "workspaceTemplates" (.obj [])
  let edgesV ← wtV.pyGet "edges" (.arr [])
  let edges ← edgesV.pyIter
  edges.mapM (fun e => e.pyIndex "node")

/-- Embedding of `async_get_template_metrics`:
`data.get("templateMetrics", {})`. -/
def async_get_template_metrics (h : HttpOutcome) : Except Err JVal := do
  let data ← execute_query h
  data.pyGet "templateMetrics" (.obj [])

/-- Embedding of `RailwayApiClient._get_headers`: `Content-Type` always, then
the team token header for a `"team"` token type, the bearer header
otherwise. -/
def get_headers (token_type api_token : String) : List (String × String) :=
  if token_type == "team" then
    [("Content-Type", "application/json"), ("Team-Access-Token", api_token)]
  else
    [("Content-Type", "application/json"),
     ("Authorization", "Bearer " ++ api_token)]

/-- Lookup of a header value by name. -/
def headerLookup : List (String × String) → String → Option String
  | [], _ => none
  | (k', v) :: rest, k => if k' == k then some v else headerLookup rest k

example : execute_query (.resp 404 "oops" none) =
    .error (.api "API request failed with status 404: oops") := rfl

example : execute_query (.resp 200 "x" (some (.obj [(.str "errors",
    .arr [.obj [(.str "message", .str "Not Authorized")]])]))) =
    .error (.auth "Not Authorized") := by
  have h1 : isAuthMessage "Not Authorized" = true := by decide
  simp [execute_query, assocLookup, JVal.beq, JVal.pyIter, errMessageOf,
    JVal.pyGet, h1, Bind.bind, Except.bind, List.mapM, List.mapM.loop,
    String.intercalate, String.intercalate.go, Pure.pure, Except.pure]

/-- The remote side of one poll cycle: the HTTP outcome of each query issued
by `async_get_all_data`, keyed by the query's variable where it has one.  It
is fixed for the cycle, so repeated queries with equal ids behave equally. -/
structure Oracle where
  meWithWorkspaces : HttpOutcome
  meBasic : HttpOutcome
  projects : HttpOutcome
  deployments : JVal → HttpOutcome
  referralInfo : JVal → HttpOutcome
  workspaceTemplates : JVal → HttpOutcome
  templateMetrics : JVal → HttpOutcome

/-- Running state of the per-workspace loop of `async_get_all_data`: the
`referrals` and `template_metrics` dicts, the flat `templates` list (all
mutated in `result` in place in the source) and the five running earnings
accumulators. -/
structure WsState where
  referrals : List (JVal × JVal)
  templates : List JVal
  metrics : List (JVal × JVal)
  t30 : Int
  tTotal : Int
  tPayout : Int
  rCred : Int
  rPend : Int

/-- Initial loop state: empty dicts and zero totals, as in `result`'s
initializer. -/
def initWsState : WsState := ⟨[], [], [], 0, 0, 0, 0, 0⟩

/-- Step 1 of `async_get_all_data` (`api.py` lines 356-371): fetch identity
with workspaces; on any `RailwayApiError` fall back to the plain identity
query; if that also fails with a `RailwayApiError`, keep the defaults
(`result["me"] = {}` and `result["workspaces"] = []`).  Returns the pair
(`result["me"]`, `result["workspaces"]`). -/
def allData_identity (o : Oracle) : Except Err (JVal × JVal) :=
  tryRailway
    (do
      let me_data ← async_get_me_with_workspaces o.meWithWorkspaces
      let idv ← me_data.pyGet "id" .null
      let namev ← me_data.pyGet "name" .null
      let emailv ← me_data.pyGet "email" .null
      let ws ← me_data.pyGet "workspaces" (.arr [])
      Except.ok (JVal.obj [(.str "id", idv), (.str "name", namev),
        (.str "email", emailv)], ws))
    (tryRailway
      (do
        let me ← async_get_me o.meBasic
        Except.ok (me, JVal.arr []))
      (.ok (.obj [], .arr [])))

/-- Step 2 of `async_get_all_data` (lines 373-377): fetch the project list;
on a `RailwayApiError` keep the default empty list. -/
def allData_projects (o : Oracle) : Except Err (List JVal) :=
  tryRailway (async_get_projects o.projects) (.ok [])

/-- Step 3 of `async_get_all_data` (lines 379-392): per-project deployments.
Projects without a truthy id are skipped; a `RailwayApiError` for one project
leaves that project's key out of the dict; the fetched list is stored under
the project id. -/
def depLoop (o : Oracle) (acc : List (JVal × JVal)) :
    List JVal → Except Err (List (JVal × JVal))
  | [] => .ok acc
  | project :: rest => do
      let project_id ← project.pyGet "id" .null
      if project_id.truthy then do
        let acc' ← tryRailway
          (do
            let deps ← async_get_deployments (o.deployments project_id)
            Except.ok (assocSet acc project_id (.arr deps)))
          (.ok acc)
        depLoop o acc' rest
      else depLoop o acc rest

/-- The `if template_id:` metrics sub-step of the per-template loop (lines
427-439): fetch metrics for a truthy template id, store them under that id
and accumulate the 30-day and lifetime earnings; a `RailwayApiError` from
the fetch only skips this template's metrics entry. -/
def tmplMetricsStep (o : Oracle) (st1 : WsState) (template_id : JVal) :
    Except Err WsState :=
  if template_id.truthy then
    tryRailway
      (do
        let metrics ← async_get_template_metrics (o.templateMetrics template_id)
        let metricsMap := assocSet st1.metrics template_id metrics
        let e30 ← metrics.pyGet "earningsLast30Days" (.num 0)
        let t30 ← pyAddNum st1.t30 e30.orZero
        let eTot ← metrics.pyGet "totalEarnings" (.num 0)
        let tTotal ← pyAddNum st1.tTotal eTot.orZero
        Except.ok { st1 with metrics := metricsMap, t30 := t30, tTotal := tTotal })
      (.ok st1)
  else .ok st1

/-- Body of the per-template loop (lines 421-439): tag the template with its
workspace id, append it to the flat list, accumulate its payout, then run
the metrics sub-step on its id. -/
def tmplBody (o : Oracle) (ws_id : JVal) (st : WsState) (template0 : JVal) :
    Except Err WsState := do
  let template ← template0.pySet (.str "workspace_id") ws_id
  let payoutV ← template.pyGet "totalPayout" (.num 0)
  let tPayout ← pyAddNum st.tPayout payoutV.orZero
  let template_id ← template.pyGet "id" .null
  tmplMetricsStep o
    { st with templates := st.templates ++ [template], tPayout := tPayout }
    template_id

/-- The per-template loop over one workspace's fetched templates. -/
def tmplLoop (o : Oracle) (ws_id : JVal) (st : WsState) :
    List JVal → Except Err WsState
  | [] => .ok st
  | t :: ts => do
      let st' ← tmplBody o ws_id st t
      tmplLoop o ws_id st' ts

/-- Body of the per-workspace loop (lines 401-443): skip workspaces without
a truthy id; one `try` block fetches referral info, stores it and
accumulates the referral counts (on `RailwayApiError`, omit the entry and
add nothing); a second `try` block fetches the workspace's templates and
runs the per-template loop. -/
def wsBody (o : Oracle) (st : WsState) (workspace : JVal) :
    Except Err WsState := do
  let ws_id ← workspace.pyGet "id" .null
  if ws_id.truthy then do
    let st1 ← tryRailway
      (do
        let referral_info ← async_get_referral_info (o.referralInfo ws_id)
        let referrals := assocSet st.referrals ws_id referral_info
        let stats ← referral_info.pyGet "referralStats" (.obj [])
        let cred ← stats.pyGet "credited" (.num 0)
        let rCred ← pyAddNum st.rCred cred
        let pend ← stats.pyGet "pending" (.num 0)
        let rPend ← pyAddNum st.rPend pend
        Except.ok { st with referrals := referrals, rCred := rCred, rPend := rPend })
      (.ok st)
    tryRailway
      (do
        let templates ← async_get_workspace_templates (o.workspaceTemplates ws_id)
        tmplLoop o ws_id st1 templates)
      (.ok st1)
  else .ok st

/-- The per-workspace loop over `result["workspaces"]`. -/
def wsLoop (o : Oracle) (st : WsState) : List JVal → Except Err WsState
  | [] => .ok st
  | w :: ws => do
      let st' ← wsBody o st w
      wsLoop o st' ws

/-- The final `result["earnings"]` dict (lines 446-452). -/
def earningsObj (st : WsState) : JVal :=
  .obj [(.str "templates_30d", .num st.t30),
        (.str "templates_total", .num st.tTotal),
        (.str "templates_payout", .num st.tPayout),
        (.str "referrals_credited", .num st.rCred),
        (.str "referrals_pending", .num st.rPend)]

/-- The final `result` dict.  The source builds `result` by mutating the
fixed keys of the initial literal (lines 339-354) in place; each key's final
value is exactly the corresponding component here, so assembling them at the
end yields the same dict, in the same key order. -/
def assembleSnap (me wsVal : JVal) (projects : List JVal)
    (deps : List (JVal × JVal)) (st : WsState) : JVal :=
  .obj [(.str "me", me),
        (.str "workspaces", wsVal),
        (.str "projects", .arr projects),
        (.str "deployments", .obj deps),
        (.str "referrals", .obj st.referrals),
        (.str "templates", .arr st.templates),
        (.str "template_metrics", .obj st.metrics),
        (.str "earnings", earningsObj st)]

/-- Embedding of `RailwayApiClient.async_get_all_data` (lines 337-454).
The iteration over `result["workspaces"]` happens after the deployments
loop, as in the source; iterating a non-iterable workspaces value raises
there. -/
def async_get_all_data (o : Oracle) : Except Err JVal := do
  let pair ← allData_identity o
  let projects ← allData_projects o
  let deps ← depLoop o [] projects
  let workspaces ← pair.2.pyIter
  let st ← wsLoop o initWsState workspaces
  Except.ok (assembleSnap pair.1 pair.2 projects deps st)

/-- Home Assistant exceptions raised by the coordinator, plus `uncaught` for
exceptions its handlers do not match. -/
inductive HAExc where
  | configEntryAuthFailed (msg : String)
  | configEntryNotReady (msg : String)
  | updateFailed (msg : String)
  | uncaught (e : Err)

/-- Embedding of `RailwayDataUpdateCoordinator._async_update_data`
(`coordinator.py` lines 42-51): map the client's error kinds to the three
Home Assistant exceptions, in handler order (`RailwayAuthError` first, then
`RailwayConnectionError`, then the `RailwayApiError` base class). -/
def coordinator_update_data (fetch : Except Err JVal) : Except HAExc JVal :=
  match fetch with
  | .ok d => .ok d
  | .error (.auth m) =>
      .error (.configEntryAuthFailed ("Authentication failed: " ++ m))
  | .error (.conn m) =>
      .error (.configEntryNotReady ("Connection to Railway failed: " ++ m))
  | .error (.api m) =>
      .error (.updateFailed ("Error communicating with Railway API: " ++ m))
  | .error e => .error (.uncaught e)

/-- Externally visible classification of one poll cycle. -/
inductive VisibleState where
  | needsReauth
  | notYetReady
  | updateFailedKeepLast
  | okUpdated
  | crashed

/-- State the scheduler keeps across cycles: last good snapshot, the success
flag, and whether the next cycle is the first one. -/
structure SchedulerState where
  snapshot : Option JVal
  lastUpdateSuccess : Bool
  firstCycle : Bool

/-- Modelled from the spec: the poll scheduler is Home Assistant's
`DataUpdateCoordinator` framework, which is not part of this repository.
Per the spec's Scheduler Adapter contract, `ConfigEntryAuthFailed` puts the
integration into the needs-re-authentication state; `ConfigEntryNotReady`
on the first cycle means "not yet ready, retry next tick"; on a later cycle
it, like `UpdateFailed`, leaves the previous snapshot in place and flips the
success flag false; a successful fetch swaps in the new snapshot and sets
the flag true. -/
def schedulerStep (st : SchedulerState) (r : Except HAExc JVal) :
    SchedulerState × VisibleState :=
  match r with
  | .ok snap =>
      ({ snapshot := some snap, lastUpdateSuccess := true,
         firstCycle := false }, .okUpdated)
  | .error (.configEntryAuthFailed _) =>
      ({ st with lastUpdateSuccess := false, firstCycle := false },
       .needsReauth)
  | .error (.configEntryNotReady _) =>
      if st.firstCycle then ({ st with firstCycle := false }, .notYetReady)
      else ({ st with lastUpdateSuccess := false, firstCycle := false },
        .updateFailedKeepLast)
  | .error (.updateFailed _) =>
      ({ st with lastUpdateSuccess := false, firstCycle := false },
       .updateFailedKeepLast)
  | .error (.uncaught _) =>
      ({ st with lastUpdateSuccess := false, firstCycle := false }, .crashed)

theorem JVal.pyGet_error (v : JVal) (k : String) (d : JVal) (e : Err)
    (h : v.pyGet k d = .error e) : e.isRailwayApiError = false := by
  cases v <;> simp [JVal.pyGet] at h <;> simp [← h, Err.isRailwayApiError]

theorem JVal.pySet_error (v k' w : JVal) (e : Err)
    (h : v.pySet k' w = .error e) : e.isRailwayApiError = false := by
  cases v <;> simp [JVal.pySet] at h <;> simp [← h, Err.isRailwayApiError]

theorem JVal.pyIter_error (v : JVal) (e : Err)
    (h : v.pyIter = .error e) : e.isRailwayApiError = false := by
  cases v <;> simp [JVal.pyIter] at h <;> simp [← h, Err.isRailwayApiError]

theorem pyAddNum_error (a : Int) (v : JVal) (e : Err)
    (h : pyAddNum a v = .error e) : e.isRailwayApiError = false := by
  cases v <;> simp [pyAddNum] at h <;> simp [← h, Err.isRailwayApiError]

/-- The numeric value a JSON value contributes when added to an accumulator
(booleans count as 0/1); non-numeric values make `pyAddNum` raise instead. -/
def JVal.numOf : JVal → Int
  | .num n => n
  | .bool b => if b then 1 else 0
  | _ => 0

theorem pyAddNum_ok (a : Int) (v : JVal) (r : Int)
    (h : pyAddNum a v = .ok r) : r = a + v.numOf := by
  cases v with
  | num n => simp [pyAddNum] at h; simp [JVal.numOf]; omega
  | bool b =>
    cases b <;> simp [pyAddNum] at h <;> simp [JVal.numOf] <;> omega
  | null => simp [pyAddNum] at h
  | str s => simp [pyAddNum] at h
  | arr xs => simp [pyAddNum] at h
  | obj fs => simp [pyAddNum] at h

/-- C5: for every token-kind value the built headers carry exactly one of the
bearer `Authorization` header and the dedicated `Team-Access-Token` header,
never both: a `"team"` token type selects the team header with the bare
token, any other token type selects the bearer header. -/
theorem claim5_headers_exclusive (token_type api_token : String) :
    headerLookup (get_headers token_type api_token) "Team-Access-Token" =
      (if token_type == "team" then some api_token else none) ∧
    headerLookup (get_headers token_type api_token) "Authorization" =
      (if token_type == "team" then none
       else some ("Bearer " ++ api_token)) ∧
    ((headerLookup (get_headers token_type api_token) "Authorization").isSome
      && (headerLookup (get_headers token_type api_token)
            "Team-Access-Token").isSome) = false ∧
    ((headerLookup (get_headers token_type api_token) "Authorization").isSome
      || (headerLookup (get_headers token_type api_token)
            "Team-Access-Token").isSome) = true := by
  cases h : token_type == "team" <;> simp [get_headers, headerLookup, h]

theorem truncateBody_length_le (s : String) :
    (truncateBody s).length ≤ 500 := by
  rw [truncateBody]
  split
  · show (String.mk (s.data.take 500)).length ≤ 500
    show (s.data.take 500).length ≤ 500
    simp
  · omega

/-- C6: every HTTP response with status 401 or 403 raises `AuthError`
regardless of body content; every other non-200 status raises `ApiError`
carrying a body excerpt truncated to at most 500 characters. -/
theorem claim6_status_mapping (status : Nat) (text : String)
    (json : Option JVal) :
    (execute_query (.resp 401 text json) =
      .error (.auth "Invalid API token")) ∧
    (execute_query (.resp 403 text json) =
      .error (.auth "Access denied")) ∧
    (status ≠ 200 → status ≠ 401 → status ≠ 403 →
      execute_query (.resp status text json) =
        .error (.api ("API request failed with status " ++ toString status ++
          ": " ++ truncateBody text)) ∧
      (truncateBody text).length ≤ 500) := by
  refine ⟨rfl, rfl, ?_⟩
  intro h200 h401 h403
  have b401 : (status == 401) = false := by simp [h401]
  have b403 : (status == 403) = false := by simp [h403]
  have b200 : (status != 200) = true := by simp [h200]
  refine ⟨?_, truncateBody_length_le text⟩
  simp [execute_query, b401, b403, b200]

theorem claim6_status_mapping_witness :
    execute_query (.resp 500 "server blew up" none) =
      .error (.api "API request failed with status 500: server blew up") ∧
    (truncateBody "server blew up").length ≤ 500 :=
  (claim6_status_mapping 500 "server blew up" none).2.2
    (by decide) (by decide) (by decide)

/-- C7 (amended): a transport exception that is an instance of
`aiohttp.ClientError` is wrapped as `RailwayConnectionError`; a transport
exception outside that class (such as `asyncio.TimeoutError` raised when the
30-second total timeout expires) propagates unwrapped. -/
theorem claim7_transport_wrapping (isCE : Bool) (msg : String) :
    execute_query (.exc isCE msg) =
      (if isCE then Except.error (Err.conn ("Connection error: " ++ msg))
       else Except.error (Err.raw msg)) := by
  cases isCE <;> rfl

/-- C7 counterexample: a transport exception outside the
`aiohttp.ClientError` class (a timeout of the 30-second request budget
raises `asyncio.TimeoutError`, which is such an exception) escapes
`_execute_query` raw instead of being wrapped as `ConnectionError`. -/
theorem claim7_counterexample :
    execute_query (.exc false "TimeoutError()") =
      .error (.raw "TimeoutError()") ∧
    execute_query (.exc false "TimeoutError()") ≠
      .error (.conn "Connection error: TimeoutError()") ∧
    (Err.raw "TimeoutError()").isRailwayApiError = false :=
  ⟨rfl, by
    intro hc
    rw [show execute_query (HttpOutcome.exc false "TimeoutError()") =
      Except.error (Err.raw "TimeoutError()") from rfl] at hc
    exact Err.noConfusion (Except.error.inj hc), rfl⟩

/-- C8: the coordinator classifies the aggregator's error kind: `AuthError`
maps to the needs-re-authentication state; `ConnectionError` on the first
cycle only maps to the not-yet-ready state; `ApiError`, or `ConnectionError`
on a later cycle, maps to the update-failed state in which the previous
snapshot stays visible and the success flag flips false. -/
theorem claim8_scheduler_classification (st : SchedulerState) (m : String) :
    ((schedulerStep st (coordinator_update_data (.error (.auth m)))).2 =
      VisibleState.needsReauth) ∧
    (st.firstCycle = true →
      (schedulerStep st (coordinator_update_data (.error (.conn m)))).2 =
        VisibleState.notYetReady) ∧
    (st.firstCycle = false →
      (schedulerStep st (coordinator_update_data (.error (.conn m)))).2 =
        VisibleState.updateFailedKeepLast ∧
      (schedulerStep st
        (coordinator_update_data (.error (.conn m)))).1.snapshot =
        st.snapshot ∧
      (schedulerStep st
        (coordinator_update_data (.error (.conn m)))).1.lastUpdateSuccess =
        false) ∧
    ((schedulerStep st (coordinator_update_data (.error (.api m)))).2 =
      VisibleState.updateFailedKeepLast ∧
     (schedulerStep st
       (coordinator_update_data (.error (.api m)))).1.snapshot =
       st.snapshot ∧
     (schedulerStep st
       (coordinator_update_data (.error (.api m)))).1.lastUpdateSuccess =
       false) := by
  refine ⟨rfl, ?_, ?_, rfl, rfl, rfl⟩
  · intro h
    simp [schedulerStep, coordinator_update_data, h]
  · intro h
    refine ⟨?_, ?_, ?_⟩ <;> simp [schedulerStep, coordinator_update_data, h]

theorem claim8_scheduler_classification_witness :
    (schedulerStep ⟨none, true, true⟩
      (coordinator_update_data (.error (.conn "down")))).2 =
      VisibleState.notYetReady ∧
    (schedulerStep ⟨some (.obj []), true, false⟩
      (coordinator_update_data (.error (.conn "down")))).2 =
      VisibleState.updateFailedKeepLast ∧
    (schedulerStep ⟨some (.obj []), true, false⟩
      (coordinator_update_data (.error (.conn "down")))).1.snapshot =
      some (.obj []) :=
  ⟨(claim8_scheduler_classification ⟨none, true, true⟩ "down").2.1 rfl,
   ((claim8_scheduler_classification ⟨some (.obj []), true, false⟩
      "down").2.2.1 rfl).1,
   ((claim8_scheduler_classification ⟨some (.obj []), true, false⟩
      "down").2.2.1 rfl).2.1⟩

/-- C10: `async_validate_token` turns any of the three client error kinds
from the user-info query into `False` (so it never raises them), returns
the truthiness of the fetched user mapping's `"id"` field on success, and
any error it does propagate is not one of the three client kinds. -/
theorem claim10_validate_token (h : HttpOutcome) :
    (∀ e, async_get_me h = .error e → e.isRailwayApiError = true →
      async_validate_token h = .ok false) ∧
    (∀ me idv, async_get_me h = .ok me → me.pyGet "id" .null = .ok idv →
      async_validate_token h = .ok idv.truthy) ∧
    (∀ e, async_validate_token h = .error e →
      e.isRailwayApiError = false) := by
  refine ⟨?_, ?_, ?_⟩
  · intro e he hra
    have hinner : validate_token_inner h = .error e := by
      simp [validate_token_inner, he, Bind.bind, Except.bind]
    simp [async_validate_token, hinner, tryRailway, hra]
  · intro me idv hme hid
    have hinner : validate_token_inner h = .ok idv.truthy := by
      simp [validate_token_inner, hme, hid, Bind.bind, Except.bind,
        Pure.pure, Except.pure]
    simp [async_validate_token, hinner, tryRailway]
  · intro e he
    rw [async_validate_token] at he
    rcases tryRailway_error _ _ _ he with ⟨_, hra⟩ | hfb
    · exact hra
    · simp at hfb

theorem claim10_validate_token_witness :
    async_validate_token (.resp 401 "" none) = .ok false ∧
    async_validate_token (.resp 200 ""
      (some (.obj [(.str "data", .obj [(.str "me",
        .obj [(.str "id", .str "u1")])])]))) = .ok true :=
  ⟨(claim10_validate_token (.resp 401 "" none)).1
    (.auth "Invalid API token") rfl rfl,
   by
    have h2 := (claim10_validate_token (.resp 200 ""
      (some (.obj [(.str "data", .obj [(.str "me",
        .obj [(.str "id", .str "u1")])])])))).2.1
      (.obj [(.str "id", .str "u1")]) (.str "u1")
      (by simp [async_get_me, execute_query, assocLookup, JVal.beq,
        JVal.pyGet, Bind.bind, Except.bind])
      (by simp [JVal.pyGet, assocLookup, JVal.beq])
    simpa [JVal.truthy] using h2⟩

/-- C4: a decoded 200-status response whose body carries a top-level `errors`
array raises `AuthError` when any extracted error message's lowercased text
contains "auth", "unauthorized" or "not authenticated", and otherwise raises
`ApiError` joining all the messages. -/
theorem claim4_graphql_errors (text : String) (fs : List (JVal × JVal))
    (errs : List JVal) (msgs : List String)
    (hlook : assocLookup fs (.str "errors") = some (.arr errs))
    (hmsgs : errs.mapM errMessageOf = Except.ok msgs) :
    execute_query (.resp 200 text (some (.obj fs))) =
      (if msgs.any isAuthMessage then
        Except.error (Err.auth (String.intercalate "; " msgs))
       else Except.error (Err.api ("GraphQL errors: " ++
         String.intercalate "; " msgs))) := by
  have hmsgs' : List.mapM.loop errMessageOf errs [] = Except.ok msgs := by
    simpa [List.mapM] using hmsgs
  simp [execute_query, hlook, JVal.pyIter, hmsgs', Bind.bind, Except.bind]

theorem claim4_graphql_errors_witness :
    execute_query (.resp 200 "t" (some (.obj [(.str "errors", .arr
      [.obj [(.str "message", .str "Not authorized")],
       .obj [(.str "message", .str "boom")]])]))) =
      .error (.auth "Not authorized; boom") := by
  have h := claim4_graphql_errors "t"
    [(.str "errors", .arr [.obj [(.str "message", .str "Not authorized")],
      .obj [(.str "message", .str "boom")]])]
    [.obj [(.str "message", .str "Not authorized")],
     .obj [(.str "message", .str "boom")]]
    ["Not authorized", "boom"]
    (by simp [assocLookup, JVal.beq])
    (by simp [List.mapM, List.mapM.loop, errMessageOf, JVal.pyGet,
      assocLookup, JVal.beq, Bind.bind, Except.bind, Pure.pure, Except.pure])
  have ha : isAuthMessage "Not authorized" = true := by decide
  simpa [ha, String.intercalate, String.intercalate.go] using h

theorem except_bind_error {α β : Type} (x : Except Err α)
    (f : α → Except Err β) (e : Err) (h : (x >>= f) = .error e) :
    (∃ e0, x = .error e0 ∧ e0 = e) ∨ ∃ a, x = .ok a ∧ f a = .error e := by
  cases x with
  | error e0 =>
    simp only [Bind.bind, Except.bind, Except.error.injEq] at h
    exact Or.inl ⟨e0, rfl, h⟩
  | ok a =>
    simp only [Bind.bind, Except.bind] at h
    exact Or.inr ⟨a, rfl, h⟩

theorem except_bind_ok {α β : Type} (x : Except Err α)
    (f : α → Except Err β) (b : β) (h : (x >>= f) = .ok b) :
    ∃ a, x = .ok a ∧ f a = .ok b := by
  cases x with
  | error e0 => simp only [Bind.bind, Except.bind] at h; exact absurd h (by simp)
  | ok a =>
    simp only [Bind.bind, Except.bind] at h
    exact ⟨a, rfl, h⟩

theorem allData_identity_error (o : Oracle) (e : Err)
    (h : allData_identity o = .error e) : e.isRailwayApiError = false := by
  rw [allData_identity] at h
  rcases tryRailway_error _ _ _ h with ⟨_, hra⟩ | h2
  · exact hra
  rcases tryRailway_error _ _ _ h2 with ⟨_, hra⟩ | h3
  · exact hra
  simp at h3

theorem allData_projects_error (o : Oracle) (e : Err)
    (h : allData_projects o = .error e) : e.isRailwayApiError = false := by
  rw [allData_projects] at h
  rcases tryRailway_error _ _ _ h with ⟨_, hra⟩ | h2
  · exact hra
  simp at h2

theorem depLoop_error (o : Oracle) (ps : List JVal) :
    ∀ acc e, depLoop o acc ps = .error e → e.isRailwayApiError = false := by
  induction ps with
  | nil => intro acc e h; simp [depLoop] at h
  | cons p rest ih =>
    intro acc e h
    rw [depLoop] at h
    rcases except_bind_error _ _ _ h with ⟨e1, h1, he⟩ | ⟨pid, h1, h⟩
    · rw [← he]; exact JVal.pyGet_error _ _ _ _ h1
    by_cases ht : pid.truthy = true
    · rw [if_pos ht] at h
      rcases except_bind_error _ _ _ h with ⟨e2, h2, he⟩ | ⟨acc', h2, h⟩
      · rcases tryRailway_error _ _ _ h2 with ⟨_, hra⟩ | hfb
        · rw [← he]; exact hra
        · simp at hfb
      · exact ih _ e h
    · rw [if_neg ht] at h
      exact ih _ e h

theorem tmplMetricsStep_error (o : Oracle) (st1 : WsState) (tid : JVal)
    (e : Err) (h : tmplMetricsStep o st1 tid = .error e) :
    e.isRailwayApiError = false := by
  rw [tmplMetricsStep] at h
  by_cases ht : tid.truthy = true
  · rw [if_pos ht] at h
    rcases tryRailway_error _ _ _ h with ⟨_, hra⟩ | hfb
    · exact hra
    · simp at hfb
  · rw [if_neg ht] at h
    simp at h

theorem tmplBody_error (o : Oracle) (w : JVal) (st : WsState) (t : JVal)
    (e : Err) (h : tmplBody o w st t = .error e) :
    e.isRailwayApiError = false := by
  rw [tmplBody] at h
  rcases except_bind_error _ _ _ h with ⟨e1, h1, he⟩ | ⟨template, h1, h⟩
  · rw [← he]; exact JVal.pySet_error _ _ _ _ h1
  rcases except_bind_error _ _ _ h with ⟨e2, h2, he⟩ | ⟨payoutV, h2, h⟩
  · rw [← he]; exact JVal.pyGet_error _ _ _ _ h2
  rcases except_bind_error _ _ _ h with ⟨e3, h3, he⟩ | ⟨tPay, h3, h⟩
  · rw [← he]; exact pyAddNum_error _ _ _ h3
  rcases except_bind_error _ _ _ h with ⟨e4, h4, he⟩ | ⟨tid, h4, h⟩
  · rw [← he]; exact JVal.pyGet_error _ _ _ _ h4
  exact tmplMetricsStep_error _ _ _ _ h

theorem tmplLoop_error (o : Oracle) (w : JVal) (ts : List JVal) :
    ∀ st e, tmplLoop o w st ts = .error e → e.isRailwayApiError = false := by
  induction ts with
  | nil => intro st e h; simp [tmplLoop] at h
  | cons t rest ih =>
    intro st e h
    rw [tmplLoop] at h
    rcases except_bind_error _ _ _ h with ⟨e1, h1, he⟩ | ⟨st', h1, h⟩
    · rw [← he]; exact tmplBody_error o w st t e1 h1
    exact ih st' e h

theorem wsBody_error (o : Oracle) (st : WsState) (w : JVal) (e : Err)
    (h : wsBody o st w = .error e) : e.isRailwayApiError = false := by
  rw [wsBody] at h
  rcases except_bind_error _ _ _ h with ⟨e1, h1, he⟩ | ⟨ws_id, h1, h⟩
  · rw [← he]; exact JVal.pyGet_error _ _ _ _ h1
  by_cases ht : ws_id.truthy = true
  · rw [if_pos ht] at h
    rcases except_bind_error _ _ _ h with ⟨e2, h2, he⟩ | ⟨st1, h2, h⟩
    · rcases tryRailway_error _ _ _ h2 with ⟨_, hra⟩ | hfb
      · rw [← he]; exact hra
      · simp at hfb
    · rcases tryRailway_error _ _ _ h with ⟨_, hra⟩ | hfb
      · exact hra
      · simp at hfb
  · rw [if_neg ht] at h
    simp at h

theorem wsLoop_error (o : Oracle) (ws : List JVal) :
    ∀ st e, wsLoop o st ws = .error e → e.isRailwayApiError = false := by
  induction ws with
  | nil => intro st e h; simp [wsLoop] at h
  | cons w rest ih =>
    intro st e h
    rw [wsLoop] at h
    rcases except_bind_error _ _ _ h with ⟨e1, h1, he⟩ | ⟨st', h1, h⟩
    · rw [← he]; exact wsBody_error o st w e1 h1
    exact ih st' e h

/-- C1 (amended): `async_get_all_data` never lets any `RailwayApiError` kind
escape: every branch, the foundational identity query included, catches
`RailwayApiError` — and `RailwayAuthError` / `RailwayConnectionError` are its
subclasses — so on identity failure it falls back to the basic identity query
and then to empty defaults and still returns a snapshot; only errors outside
the `RailwayApiError` hierarchy can propagate. -/
theorem claim1_no_railway_error_escapes (o : Oracle) (e : Err)
    (h : async_get_all_data o = .error e) : e.isRailwayApiError = false := by
  rw [async_get_all_data] at h
  rcases except_bind_error _ _ _ h with ⟨e1, h1, he⟩ | ⟨pair, h1, h⟩
  · rw [← he]; exact allData_identity_error o e1 h1
  rcases except_bind_error _ _ _ h with ⟨e2, h2, he⟩ | ⟨projects, h2, h⟩
  · rw [← he]; exact allData_projects_error o e2 h2
  rcases except_bind_error _ _ _ h with ⟨e3, h3, he⟩ | ⟨deps, h3, h⟩
  · rw [← he]; exact depLoop_error o projects [] e3 h3
  rcases except_bind_error _ _ _ h with ⟨e4, h4, he⟩ | ⟨wsList, h4, h⟩
  · rw [← he]; exact JVal.pyIter_error _ _ h4
  rcases except_bind_error _ _ _ h with ⟨e5, h5, he⟩ | ⟨st, h5, h⟩
  · rw [← he]; exact wsLoop_error o wsList initWsState e5 h5
  simp at h

/-- Oracle in which the transport/auth layer rejects every query with a 401:
the foundational identity query fails with `AuthError`. -/
def oracleAuthDown : Oracle :=
  { meWithWorkspaces := .resp 401 "" none
    meBasic := .resp 401 "" none
    projects := .resp 401 "" none
    deployments := fun _ => .resp 401 "" none
    referralInfo := fun _ => .resp 401 "" none
    workspaceTemplates := fun _ => .resp 401 "" none
    templateMetrics := fun _ => .resp 401 "" none }

/-- C1 counterexample: when the foundational identity query fails with
`AuthError` (and so does everything else), `async_get_all_data` does not
raise — it returns the all-defaults snapshot, because `except
RailwayApiError` catches the `RailwayAuthError` subclass. -/
theorem claim1_counterexample :
    async_get_me_with_workspaces oracleAuthDown.meWithWorkspaces =
      .error (.auth "Invalid API token") ∧
    async_get_all_data oracleAuthDown =
      .ok (assembleSnap (.obj []) (.arr []) [] [] initWsState) :=
  ⟨rfl, rfl⟩

/-- Oracle whose identity query dies with a transport exception outside the
`aiohttp.ClientError` class (a timeout): the only kind of failure that does
escape `async_get_all_data`. -/
def oracleTimeout : Oracle :=
  { meWithWorkspaces := .exc false "TimeoutError()"
    meBasic := .resp 401 "" none
    projects := .resp 401 "" none
    deployments := fun _ => .resp 401 "" none
    referralInfo := fun _ => .resp 401 "" none
    workspaceTemplates := fun _ => .resp 401 "" none
    templateMetrics := fun _ => .resp 401 "" none }

theorem claim1_no_railway_error_escapes_witness :
    async_get_all_data oracleTimeout = .error (.raw "TimeoutError()") ∧
    (Err.raw "TimeoutError()").isRailwayApiError = false :=
  ⟨rfl, claim1_no_railway_error_escapes oracleTimeout (.raw "TimeoutError()") rfl⟩

/-- Total lookup of a string key with a default, for stating properties of a
returned snapshot. -/
def JVal.lookD (v : JVal) (k : String) (d : JVal) : JVal :=
  match v with
  | .obj fs => (assocLookup fs (.str k)).getD d
  | _ => d

/-- Keys of a JSON object, in order (empty for non-objects). -/
def jKeys : JVal → List JVal
  | .obj fs => assocKeys fs
  | _ => []

theorem async_get_all_data_ok (o : Oracle) (snap : JVal)
    (h : async_get_all_data o = .ok snap) :
    ∃ pair projects deps wsList st,
      allData_identity o = .ok pair ∧
      allData_projects o = .ok projects ∧
      depLoop o [] projects = .ok deps ∧
      pair.2.pyIter = .ok wsList ∧
      wsLoop o initWsState wsList = .ok st ∧
      snap = assembleSnap pair.1 pair.2 projects deps st := by
  rw [async_get_all_data] at h
  rcases except_bind_ok _ _ _ h with ⟨pair, h1, h⟩
  rcases except_bind_ok _ _ _ h with ⟨projects, h2, h⟩
  rcases except_bind_ok _ _ _ h with ⟨deps, h3, h⟩
  rcases except_bind_ok _ _ _ h with ⟨wsList, h4, h⟩
  rcases except_bind_ok _ _ _ h with ⟨st, h5, h⟩
  simp only [Except.ok.injEq] at h
  exact ⟨pair, projects, deps, wsList, st, h1, h2, h3, h4, h5, h.symm⟩

/-- C9: every mapping returned by `async_get_all_data`, whichever branches
fail, has exactly the eight keys `me`, `workspaces`, `projects`,
`deployments`, `referrals`, `templates`, `template_metrics`, `earnings` (in
order), and its `earnings` value has exactly the five keys `templates_30d`,
`templates_total`, `templates_payout`, `referrals_credited`,
`referrals_pending`. -/
theorem claim9_snapshot_keys (o : Oracle) (snap : JVal)
    (h : async_get_all_data o = .ok snap) :
    jKeys snap = [.str "me", .str "workspaces", .str "projects",
      .str "deployments", .str "referrals", .str "templates",
      .str "template_metrics", .str "earnings"] ∧
    jKeys (snap.lookD "earnings" .null) = [.str "templates_30d",
      .str "templates_total", .str "templates_payout",
      .str "referrals_credited", .str "referrals_pending"] := by
  obtain ⟨pair, projects, deps, wsList, st, h1, h2, h3, h4, h5, hsnap⟩ :=
    async_get_all_data_ok o snap h
  subst hsnap
  constructor
  · simp [assembleSnap, jKeys, assocKeys]
  · have hlook : (assembleSnap pair.1 pair.2 projects deps st).lookD
        "earnings" .null = earningsObj st := by
      simp [assembleSnap, JVal.lookD, assocLookup, JVal.beq]
    rw [hlook]
    simp [earningsObj, jKeys, assocKeys]

theorem claim9_snapshot_keys_witness :
    jKeys (assembleSnap (.obj []) (.arr []) [] [] initWsState) =
      [.str "me", .str "workspaces", .str "projects", .str "deployments",
       .str "referrals", .str "templates", .str "template_metrics",
       .str "earnings"] ∧
    jKeys ((assembleSnap (.obj []) (.arr []) [] []
        initWsState).lookD "earnings" .null) =
      [.str "templates_30d", .str "templates_total", .str "templates_payout",
       .str "referrals_credited", .str "referrals_pending"] :=
  claim9_snapshot_keys oracleAuthDown _ rfl

theorem assocLookup_set_isSome (fs : List (JVal × JVal)) (k v K : JVal)
    (h : (assocLookup fs K).isSome = true) :
    (assocLookup (assocSet fs k v) K).isSome = true := by
  by_cases hk : k = K
  · subst hk
    rw [assocLookup_set_self]
    rfl
  · rw [assocLookup_set_ne fs k v K hk]
    exact h

theorem depLoop_preserves_isSome (o : Oracle) (ps : List JVal) :
    ∀ acc d K, depLoop o acc ps = .ok d →
      (assocLookup acc K).isSome = true →
      (assocLookup d K).isSome = true := by
  induction ps with
  | nil =>
    intro acc d K h hK
    simp [depLoop] at h
    rw [← h]
    exact hK
  | cons q rest ih =>
    intro acc d K h hK
    rw [depLoop] at h
    rcases except_bind_ok _ _ _ h with ⟨pid, h1, h⟩
    by_cases htq : pid.truthy = true
    · rw [if_pos htq] at h
      rcases except_bind_ok _ _ _ h with ⟨acc', h2, h⟩
      rcases tryRailway_ok _ _ _ h2 with hbody | ⟨e2, hbody, hra, hfb⟩
      · rcases except_bind_ok _ _ _ hbody with ⟨deps', hd, hacc'⟩
        have hs : assocSet acc pid (.arr deps') = acc' := Except.ok.inj hacc'
        apply ih acc' d K h
        rw [← hs]
        exact assocLookup_set_isSome acc pid _ K hK
      · have hs : acc = acc' := Except.ok.inj hfb
        apply ih acc' d K h
        rw [← hs]
        exact hK
    · rw [if_neg htq] at h
      exact ih acc d K h hK

theorem depLoop_inserts (o : Oracle) (ps : List JVal) :
    ∀ acc d p Q depsQ, depLoop o acc ps = .ok d → p ∈ ps →
      p.pyGet "id" .null = .ok Q → Q.truthy = true →
      async_get_deployments (o.deployments Q) = .ok depsQ →
      (assocLookup d Q).isSome = true := by
  induction ps with
  | nil => intro acc d p Q depsQ h hp; simp at hp
  | cons q rest ih =>
    intro acc d p Q depsQ h hp hid ht hdeps
    rw [depLoop] at h
    rcases except_bind_ok _ _ _ h with ⟨pid, h1, hrest⟩
    clear h
    rcases List.mem_cons.1 hp with hpq | hp'
    · have hpq2 : pid = Q := by
        rw [hpq] at hid
        rw [h1] at hid
        exact Except.ok.inj hid
      rw [hpq2] at h1 hrest
      rw [if_pos ht] at hrest
      rcases except_bind_ok _ _ _ hrest with ⟨acc', h2, h3⟩
      rcases tryRailway_ok _ _ _ h2 with hbody | ⟨e2, hbody, hra, hfb⟩
      · rcases except_bind_ok _ _ _ hbody with ⟨deps', hd, hacc'⟩
        have hs : assocSet acc Q (.arr deps') = acc' := Except.ok.inj hacc'
        apply depLoop_preserves_isSome o rest acc' d Q h3
        rw [← hs, assocLookup_set_self]
        rfl
      · rw [hdeps] at hbody
        simp [Bind.bind, Except.bind] at hbody
    · by_cases htq : pid.truthy = true
      · rw [if_pos htq] at hrest
        rcases except_bind_ok _ _ _ hrest with ⟨acc', h2, h3⟩
        exact ih acc' d p Q depsQ h3 hp' hid ht hdeps
      · rw [if_neg htq] at hrest
        exact ih acc d p Q depsQ hrest hp' hid ht hdeps

theorem depLoop_omits (o : Oracle) (ps : List JVal) :
    ∀ acc d P eP, depLoop o acc ps = .ok d →
      assocLookup acc P = none →
      async_get_deployments (o.deployments P) = .error eP →
      assocLookup d P = none := by
  induction ps with
  | nil =>
    intro acc d P eP h hacc hfail
    simp [depLoop] at h
    rw [← h]
    exact hacc
  | cons q rest ih =>
    intro acc d P eP h hacc hfail
    rw [depLoop] at h
    rcases except_bind_ok _ _ _ h with ⟨pid, h1, h⟩
    by_cases htq : pid.truthy = true
    · rw [if_pos htq] at h
      rcases except_bind_ok _ _ _ h with ⟨acc', h2, h⟩
      rcases tryRailway_ok _ _ _ h2 with hbody | ⟨e2, hbody, hra, hfb⟩
      · rcases except_bind_ok _ _ _ hbody with ⟨deps', hd, hacc'⟩
        have hs : assocSet acc pid (.arr deps') = acc' := Except.ok.inj hacc'
        have hne : pid ≠ P := by
          intro hEq
          rw [hEq, hfail] at hd
          simp at hd
        apply ih acc' d P eP h _ hfail
        rw [← hs, assocLookup_set_ne acc pid _ P hne]
        exact hacc
      · have hs : acc = acc' := Except.ok.inj hfb
        apply ih acc' d P eP h _ hfail
        rw [← hs]
        exact hacc
    · rw [if_neg htq] at h
      exact ih acc d P eP h hacc hfail

/-- Lookup of an arbitrary key in a JSON object (for stating dict-membership
properties of a snapshot). -/
def jLookup (v k : JVal) : Option JVal :=
  match v with
  | .obj fs => assocLookup fs k
  | _ => none

/-- C2: if the per-project deployments query fails (with a
`RailwayApiError` kind) for a project with id `P` in the fetched project
list but succeeds for a project with id `Q`, the returned snapshot's
deployments mapping has a key for `Q` and no key at all for `P`. -/
theorem claim2_partial_deployments (o : Oracle) (snap : JVal)
    (projects : List JVal) (p q P Q : JVal) (eP : Err) (depsQ : List JVal)
    (h : async_get_all_data o = .ok snap)
    (hproj : snap.lookD "projects" .null = .arr projects)
    (hp : p ∈ projects) (hpid : p.pyGet "id" .null = .ok P)
    (hPt : P.truthy = true)
    (hPfail : async_get_deployments (o.deployments P) = .error eP)
    (hq : q ∈ projects) (hqid : q.pyGet "id" .null = .ok Q)
    (hQt : Q.truthy = true)
    (hQok : async_get_deployments (o.deployments Q) = .ok depsQ) :
    (jLookup (snap.lookD "deployments" .null) Q).isSome = true ∧
    jLookup (snap.lookD "deployments" .null) P = none := by
  obtain ⟨pair, projects', deps, wsList, st, h1, h2, h3, h4, h5, hsnap⟩ :=
    async_get_all_data_ok o snap h
  subst hsnap
  have hpe : projects' = projects := by
    simp [assembleSnap, JVal.lookD, assocLookup, JVal.beq] at hproj
    exact hproj
  subst hpe
  have hdep : (assembleSnap pair.1 pair.2 projects' deps st).lookD
      "deployments" .null = .obj deps := by
    simp [assembleSnap, JVal.lookD, assocLookup, JVal.beq]
  rw [hdep]
  constructor
  · simp only [jLookup]
    exact depLoop_inserts o projects' [] deps q Q depsQ h3 hq hqid hQt hQok
  · simp only [jLookup]
    exact depLoop_omits o projects' [] deps P eP h3 (by simp [assocLookup])
      hPfail


/-- Scenario A oracle: the project list has projects `p1` and `q1`;
deployments fail with a 500 for every project except `q1`. -/
def oracleScenarioA : Oracle :=
  { meWithWorkspaces := .resp 401 "" none
    meBasic := .resp 401 "" none
    projects := .resp 200 "" (some (.obj [(.str "data", .obj [(.str
      "projects", .obj [(.str "edges", .arr [
        .obj [(.str "node", .obj [(.str "id", .str "p1")])],
        .obj [(.str "node", .obj [(.str "id", .str "q1")])]])])])]))
    deployments := fun pid =>
      if JVal.beq pid (.str "q1") then .resp 200 "" (some (.obj []))
      else .resp 500 "" none
    referralInfo := fun _ => .resp 401 "" none
    workspaceTemplates := fun _ => .resp 401 "" none
    templateMetrics := fun _ => .resp 401 "" none }

/-- The two projects fetched under `oracleScenarioA`. -/
def projsA : List JVal :=
  [.obj [(.str "id", .str "p1")], .obj [(.str "id", .str "q1")]]

/-- The snapshot `async_get_all_data` returns under `oracleScenarioA`:
both projects listed, a deployments key for `q1` only. -/
def snapA : JVal :=
  assembleSnap (.obj []) (.arr []) projsA [(.str "q1", .arr [])] initWsState

theorem claim2_partial_deployments_witness :
    (jLookup (snapA.lookD "deployments" .null) (.str "q1")).isSome = true ∧
    jLookup (snapA.lookD "deployments" .null) (.str "p1") = none := by
  have hA : async_get_all_data oracleScenarioA = .ok snapA := by
    simp [snapA, projsA, async_get_all_data, allData_identity,
      allData_projects, async_get_me_with_workspaces, async_get_me,
      async_get_projects, depLoop, wsLoop, execute_query, tryRailway,
      JVal.pyGet, JVal.pyIter, JVal.pyIndex, JVal.truthy, assocLookup,
      assocSet, JVal.beq, oracleScenarioA, async_get_deployments,
      truncateBody, Bind.bind, Except.bind, List.mapM, List.mapM.loop,
      List.foldlM, Pure.pure, Except.pure, Err.isRailwayApiError,
      initWsState, assembleSnap]
  have hPfail :
      async_get_deployments (oracleScenarioA.deployments (.str "p1")) =
        .error (.api ("API request failed with status " ++ toString 500 ++
          ": " ++ truncateBody "")) := by
    simp [oracleScenarioA, async_get_deployments, execute_query, JVal.beq,
      Bind.bind, Except.bind]
  have hQok :
      async_get_deployments (oracleScenarioA.deployments (.str "q1")) =
        .ok [] := by
    simp [oracleScenarioA, async_get_deployments, execute_query, assocLookup,
      JVal.beq, JVal.pyGet, JVal.pyIter, Bind.bind, Except.bind,
      List.foldlM, Pure.pure, Except.pure]
  exact claim2_partial_deployments oracleScenarioA snapA projsA
    (.obj [(.str "id", .str "p1")]) (.obj [(.str "id", .str "q1")])
    (.str "p1") (.str "q1") _ [] hA
    (by simp [snapA, assembleSnap, JVal.lookD, assocLookup, JVal.beq])
    (by simp [projsA])
    (by simp [JVal.pyGet, assocLookup, JVal.beq])
    (by simp [JVal.truthy])
    hPfail
    (by simp [projsA])
    (by simp [JVal.pyGet, assocLookup, JVal.beq])
    (by simp [JVal.truthy])
    hQok

theorem JVal.pyGet_ok (v : JVal) (k : String) (d r : JVal)
    (h : v.pyGet k d = .ok r) : r = v.lookD k d := by
  cases v <;> simp [JVal.pyGet, JVal.lookD] at h ⊢ <;> exact h.symm

/-- The id under which a loop iteration files a workspace or template: its
`"id"` field when that lookup succeeds and is truthy, nothing otherwise
(`if not ws_id: continue` / `if template_id:`). -/
def idOf (v : JVal) : Option JVal :=
  match v.pyGet "id" .null with
  | .ok i => if i.truthy then some i else none
  | .error _ => none

/-- The truthy ids of the workspaces of one poll, in iteration order. -/
def wsIdsOf (ws : List JVal) : List JVal := ws.filterMap idOf

/-- The truthy ids of the flat template list, in iteration order. -/
def tmplIdsOf (ts : List JVal) : List JVal := ts.filterMap idOf

/-- Credited referral count contributed by one snapshot referrals entry. -/
def refCreditOf (kv : JVal × JVal) : Int :=
  ((kv.2.lookD "referralStats" (.obj [])).lookD "credited" (.num 0)).numOf

/-- Pending referral count contributed by one snapshot referrals entry. -/
def refPendingOf (kv : JVal × JVal) : Int :=
  ((kv.2.lookD "referralStats" (.obj [])).lookD "pending" (.num 0)).numOf

/-- Payout contributed by one template of the snapshot's flat list. -/
def payoutOf (t : JVal) : Int := (t.lookD "totalPayout" (.num 0)).orZero.numOf

/-- Thirty-day earnings contributed by one template-metrics entry. -/
def met30Of (kv : JVal × JVal) : Int :=
  (kv.2.lookD "earningsLast30Days" (.num 0)).orZero.numOf

/-- Lifetime earnings contributed by one template-metrics entry. -/
def metTotalOf (kv : JVal × JVal) : Int :=
  (kv.2.lookD "totalEarnings" (.num 0)).orZero.numOf

/-- The five earnings accumulators equal the sums of the corresponding
per-entry contributions over the collections captured in the same state. -/
def TotalsInv (st : WsState) : Prop :=
  st.rCred = (st.referrals.map refCreditOf).sum ∧
  st.rPend = (st.referrals.map refPendingOf).sum ∧
  st.tPayout = (st.templates.map payoutOf).sum ∧
  st.t30 = (st.metrics.map met30Of).sum ∧
  st.tTotal = (st.metrics.map metTotalOf).sum

theorem tmplBody_inv (o : Oracle) (w : JVal) (st st' : WsState) (t : JVal)
    (h : tmplBody o w st t = .ok st') :
    ∃ tpl,
      st'.referrals = st.referrals ∧ st'.rCred = st.rCred ∧
      st'.rPend = st.rPend ∧
      st'.templates = st.templates ++ [tpl] ∧
      st'.tPayout = st.tPayout + payoutOf tpl ∧
      ((st'.metrics = st.metrics ∧ st'.t30 = st.t30 ∧
        st'.tTotal = st.tTotal) ∨
       (∃ tid m, idOf tpl = some tid ∧
         st'.metrics = assocSet st.metrics tid m ∧
         st'.t30 = st.t30 + met30Of (tid, m) ∧
         st'.tTotal = st.tTotal + metTotalOf (tid, m))) := by
  rw [tmplBody] at h
  rcases except_bind_ok _ _ _ h with ⟨template, h1, hb⟩
  rcases except_bind_ok _ _ _ hb with ⟨payoutV, h2, hb2⟩
  rcases except_bind_ok _ _ _ hb2 with ⟨tPay, h3, hb3⟩
  rcases except_bind_ok _ _ _ hb3 with ⟨tid0, h4, hb4⟩
  refine ⟨template, ?_⟩
  have hpay : tPay = st.tPayout + payoutOf template := by
    rw [pyAddNum_ok _ _ _ h3, JVal.pyGet_ok _ _ _ _ h2, payoutOf]
  rw [tmplMetricsStep] at hb4
  by_cases ht : tid0.truthy = true
  · rw [if_pos ht] at hb4
    rcases tryRailway_ok _ _ _ hb4 with hbody | ⟨e2, hbody, hra, hfb⟩
    · rcases except_bind_ok _ _ _ hbody with ⟨metrics, hm, hc1⟩
      rcases except_bind_ok _ _ _ hc1 with ⟨e30, h5, hc2⟩
      rcases except_bind_ok _ _ _ hc2 with ⟨t30', h6, hc3⟩
      rcases except_bind_ok _ _ _ hc3 with ⟨eTot, h7, hc4⟩
      rcases except_bind_ok _ _ _ hc4 with ⟨tT', h8, hc5⟩
      have hst : _ = st' := Except.ok.inj hc5
      rw [← hst]
      have h30 : t30' = st.t30 + met30Of (tid0, metrics) := by
        rw [pyAddNum_ok _ _ _ h6, JVal.pyGet_ok _ _ _ _ h5, met30Of]
      have hTT : tT' = st.tTotal + metTotalOf (tid0, metrics) := by
        rw [pyAddNum_ok _ _ _ h8, JVal.pyGet_ok _ _ _ _ h7, metTotalOf]
      refine ⟨rfl, rfl, rfl, rfl, hpay, Or.inr ⟨tid0, metrics, ?_, rfl, h30, hTT⟩⟩
      simp [idOf, h4, ht]
    · have hst : st' = _ := (Except.ok.inj hfb).symm
      rw [hst]
      exact ⟨rfl, rfl, rfl, rfl, hpay, Or.inl ⟨rfl, rfl, rfl⟩⟩
  · rw [if_neg ht] at hb4
    have hst : st' = _ := (Except.ok.inj hb4).symm
    rw [hst]
    exact ⟨rfl, rfl, rfl, rfl, hpay, Or.inl ⟨rfl, rfl, rfl⟩⟩

theorem tmplBody_templates (o : Oracle) (w : JVal) (st st' : WsState)
    (t : JVal) (h : tmplBody o w st t = .ok st') :
    ∃ tpl, st'.templates = st.templates ++ [tpl] := by
  obtain ⟨tpl, _, _, _, htm, _, _⟩ := tmplBody_inv o w st st' t h
  exact ⟨tpl, htm⟩

theorem tmplLoop_templates_prefix (o : Oracle) (w : JVal) (ts : List JVal) :
    ∀ st st', tmplLoop o w st ts = .ok st' →
      ∃ newT, st'.templates = st.templates ++ newT := by
  induction ts with
  | nil =>
    intro st st' h
    simp [tmplLoop] at h
    rw [← h]
    exact ⟨[], by simp⟩
  | cons t rest ih =>
    intro st st' h
    rw [tmplLoop] at h
    rcases except_bind_ok _ _ _ h with ⟨st1, h1, h2⟩
    obtain ⟨tpl, htm⟩ := tmplBody_templates o w st st1 t h1
    obtain ⟨newT, hnew⟩ := ih st1 st' h2
    exact ⟨[tpl] ++ newT, by rw [hnew, htm, List.append_assoc]⟩

theorem tmplIdsOf_append (a b : List JVal) :
    tmplIdsOf (a ++ b) = tmplIdsOf a ++ tmplIdsOf b := by
  simp only [tmplIdsOf, List.filterMap_append]

theorem tmplIdsOf_single (t i : JVal) (h : idOf t = some i) :
    tmplIdsOf [t] = [i] := by
  simp [tmplIdsOf, List.filterMap_cons, h]

theorem assocKeys_append_single (fs : List (JVal × JVal)) (k v : JVal) :
    assocKeys (fs ++ [(k, v)]) = assocKeys fs ++ [k] := by
  simp [assocKeys]

theorem tmplLoop_inv (o : Oracle) (w : JVal) (ts : List JVal) :
    ∀ st st', tmplLoop o w st ts = .ok st' →
      (tmplIdsOf st'.templates).Nodup →
      assocKeys st.metrics ⊆ tmplIdsOf st.templates →
      TotalsInv st →
      (TotalsInv st' ∧ assocKeys st'.metrics ⊆ tmplIdsOf st'.templates ∧
       st'.referrals = st.referrals) := by
  induction ts with
  | nil =>
    intro st st' h hNd hSub hInv
    simp [tmplLoop] at h
    rw [← h]
    exact ⟨hInv, hSub, rfl⟩
  | cons t rest ih =>
    intro st st' h hNd hSub hInv
    rw [tmplLoop] at h
    rcases except_bind_ok _ _ _ h with ⟨st1, h1, h2⟩
    obtain ⟨tpl, href, hrc, hrp, htm, hpay, hmet⟩ :=
      tmplBody_inv o w st st1 t h1
    obtain ⟨newT, hnewT⟩ := tmplLoop_templates_prefix o w rest st1 st' h2
    have hids : tmplIdsOf st'.templates =
        (tmplIdsOf st.templates ++ tmplIdsOf [tpl]) ++ tmplIdsOf newT := by
      rw [hnewT, htm, tmplIdsOf_append, tmplIdsOf_append]
    have hfresh : ∀ tid m, idOf tpl = some tid →
        st1.metrics = assocSet st.metrics tid m →
        tid ∉ assocKeys st.metrics := by
      intro tid m hidOf hmset htid
      have htidA : tid ∈ tmplIdsOf st.templates := hSub htid
      have htidB : tid ∈ tmplIdsOf [tpl] := by
        rw [tmplIdsOf_single tpl tid hidOf]
        simp
      rw [hids] at hNd
      have hAB := (List.nodup_append.1 hNd).1
      have hdisj := (List.nodup_append.1 hAB).2.2
      exact hdisj htidA htidB
    have hSub1 : assocKeys st1.metrics ⊆ tmplIdsOf st1.templates := by
      rcases hmet with ⟨hms, _, _⟩ | ⟨tid, m, hidOf, hmset, _, _⟩
      · rw [hms, htm, tmplIdsOf_append]
        intro x hx
        exact List.mem_append.2 (Or.inl (hSub hx))
      · have hnone : assocLookup st.metrics tid = none :=
          assocLookup_none_of_not_mem_keys _ _ (hfresh tid m hidOf hmset)
        rw [hmset, assocSet_fresh _ _ _ hnone, htm, tmplIdsOf_append,
          assocKeys_append_single]
        intro x hx
        rcases List.mem_append.1 hx with hx | hx
        · exact List.mem_append.2 (Or.inl (hSub hx))
        · refine List.mem_append.2 (Or.inr ?_)
          rw [tmplIdsOf_single tpl tid hidOf]
          exact hx
    have hInv1 : TotalsInv st1 := by
      obtain ⟨i1, i2, i3, i4, i5⟩ := hInv
      rcases hmet with ⟨hms, h30, hTT⟩ | ⟨tid, m, hidOf, hmset, h30, hTT⟩
      · exact ⟨by rw [href, hrc, i1], by rw [href, hrp, i2],
          by rw [htm, hpay, i3]; simp,
          by rw [hms, h30, i4], by rw [hms, hTT, i5]⟩
      · have hnone : assocLookup st.metrics tid = none :=
          assocLookup_none_of_not_mem_keys _ _ (hfresh tid m hidOf hmset)
        refine ⟨by rw [href, hrc, i1], by rw [href, hrp, i2],
          by rw [htm, hpay, i3]; simp, ?_, ?_⟩
        · rw [hmset, assocSet_fresh _ _ _ hnone, h30, i4]
          simp
        · rw [hmset, assocSet_fresh _ _ _ hnone, hTT, i5]
          simp
    obtain ⟨hI, hS, hR⟩ := ih st1 st' h2 hNd hSub1 hInv1
    exact ⟨hI, hS, by rw [hR, href]⟩

theorem wsBody_inv (o : Oracle) (st st1 : WsState) (w : JVal)
    (h : wsBody o st w = .ok st1)
    (hNd : (tmplIdsOf st1.templates).Nodup)
    (hSub : assocKeys st.metrics ⊆ tmplIdsOf st.templates)
    (hFreshW : ∀ i, idOf w = some i → assocLookup st.referrals i = none)
    (hInv : TotalsInv st) :
    TotalsInv st1 ∧ assocKeys st1.metrics ⊆ tmplIdsOf st1.templates ∧
    (st1.referrals = st.referrals ∨
      ∃ wid info, idOf w = some wid ∧
        st1.referrals = st.referrals ++ [(wid, info)]) := by
  rw [wsBody] at h
  rcases except_bind_ok _ _ _ h with ⟨ws_id, h1, hrest⟩
  by_cases ht : ws_id.truthy = true
  · have hid : idOf w = some ws_id := by simp [idOf, h1, ht]
    have hfreshws : assocLookup st.referrals ws_id = none := hFreshW ws_id hid
    rw [if_pos ht] at hrest
    rcases except_bind_ok _ _ _ hrest with ⟨stm, h2, h3⟩
    have hrefstep : (stm.templates = st.templates ∧
        stm.metrics = st.metrics ∧ stm.t30 = st.t30 ∧
        stm.tPayout = st.tPayout ∧ stm.tTotal = st.tTotal) ∧
        ((stm.referrals = st.referrals ∧ stm.rCred = st.rCred ∧
          stm.rPend = st.rPend) ∨
         ∃ info, stm.referrals = st.referrals ++ [(ws_id, info)] ∧
           stm.rCred = st.rCred + refCreditOf (ws_id, info) ∧
           stm.rPend = st.rPend + refPendingOf (ws_id, info)) := by
      rcases tryRailway_ok _ _ _ h2 with hbody | ⟨e2, hbody, hra, hfb⟩
      · rcases except_bind_ok _ _ _ hbody with ⟨info, hi, hc1⟩
        rcases except_bind_ok _ _ _ hc1 with ⟨stats, h4, hc2⟩
        rcases except_bind_ok _ _ _ hc2 with ⟨cred, h5, hc3⟩
        rcases except_bind_ok _ _ _ hc3 with ⟨rC, h6, hc4⟩
        rcases except_bind_ok _ _ _ hc4 with ⟨pend, h7, hc5⟩
        rcases except_bind_ok _ _ _ hc5 with ⟨rP, h8, hc6⟩
        have hstm : _ = stm := Except.ok.inj hc6
        rw [← hstm]
        refine ⟨⟨rfl, rfl, rfl, rfl, rfl⟩, Or.inr ⟨info, ?_, ?_, ?_⟩⟩
        · show assocSet st.referrals ws_id info =
            st.referrals ++ [(ws_id, info)]
          exact assocSet_fresh _ _ _ hfreshws
        · show rC = st.rCred + refCreditOf (ws_id, info)
          rw [pyAddNum_ok _ _ _ h6, JVal.pyGet_ok _ _ _ _ h5,
            JVal.pyGet_ok _ _ _ _ h4]
          rfl
        · show rP = st.rPend + refPendingOf (ws_id, info)
          rw [pyAddNum_ok _ _ _ h8, JVal.pyGet_ok _ _ _ _ h7,
            JVal.pyGet_ok _ _ _ _ h4]
          rfl
      · have hstm : st = stm := Except.ok.inj hfb
        rw [← hstm]
        exact ⟨⟨rfl, rfl, rfl, rfl, rfl⟩, Or.inl ⟨rfl, rfl, rfl⟩⟩
    obtain ⟨⟨htm, hmm, h30m, hpm, httm⟩, hrefm⟩ := hrefstep
    have hInvm : TotalsInv stm := by
      obtain ⟨i1, i2, i3, i4, i5⟩ := hInv
      rcases hrefm with ⟨hr, hc, hp⟩ | ⟨info, hr, hc, hp⟩
      · exact ⟨by rw [hr, hc, i1], by rw [hr, hp, i2],
          by rw [htm, hpm, i3], by rw [hmm, h30m, i4],
          by rw [hmm, httm, i5]⟩
      · exact ⟨by rw [hr, hc, i1]; simp, by rw [hr, hp, i2]; simp,
          by rw [htm, hpm, i3], by rw [hmm, h30m, i4],
          by rw [hmm, httm, i5]⟩
    have hSubm : assocKeys stm.metrics ⊆ tmplIdsOf stm.templates := by
      rw [hmm, htm]
      exact hSub
    rcases tryRailway_ok _ _ _ h3 with hbody | ⟨e2, hbody, hra, hfb⟩
    · rcases except_bind_ok _ _ _ hbody with ⟨templates, htf, hloop⟩
      obtain ⟨hI, hS, hR⟩ :=
        tmplLoop_inv o ws_id templates stm st1 hloop hNd hSubm hInvm
      refine ⟨hI, hS, ?_⟩
      rcases hrefm with ⟨hr, _, _⟩ | ⟨info, hr, _, _⟩
      · exact Or.inl (by rw [hR, hr])
      · exact Or.inr ⟨ws_id, info, hid, by rw [hR, hr]⟩
    · have hstm : stm = st1 := Except.ok.inj hfb
      rw [← hstm]
      refine ⟨hInvm, hSubm, ?_⟩
      rcases hrefm with ⟨hr, _, _⟩ | ⟨info, hr, _, _⟩
      · exact Or.inl hr
      · exact Or.inr ⟨ws_id, info, hid, hr⟩
  · rw [if_neg ht] at hrest
    have hst : st = st1 := Except.ok.inj hrest
    rw [← hst]
    exact ⟨hInv, hSub, Or.inl rfl⟩

theorem wsBody_templates_prefix (o : Oracle) (st st1 : WsState) (w : JVal)
    (h : wsBody o st w = .ok st1) :
    ∃ newT, st1.templates = st.templates ++ newT := by
  rw [wsBody] at h
  rcases except_bind_ok _ _ _ h with ⟨ws_id, h1, hrest⟩
  by_cases ht : ws_id.truthy = true
  · rw [if_pos ht] at hrest
    rcases except_bind_ok _ _ _ hrest with ⟨stm, h2, h3⟩
    have htm : stm.templates = st.templates := by
      rcases tryRailway_ok _ _ _ h2 with hbody | ⟨e2, hbody, hra, hfb⟩
      · rcases except_bind_ok _ _ _ hbody with ⟨info, hi, hc1⟩
        rcases except_bind_ok _ _ _ hc1 with ⟨stats, h4, hc2⟩
        rcases except_bind_ok _ _ _ hc2 with ⟨cred, h5, hc3⟩
        rcases except_bind_ok _ _ _ hc3 with ⟨rC, h6, hc4⟩
        rcases except_bind_ok _ _ _ hc4 with ⟨pend, h7, hc5⟩
        rcases except_bind_ok _ _ _ hc5 with ⟨rP, h8, hc6⟩
        have hstm : _ = stm := Except.ok.inj hc6
        rw [← hstm]
      · have hstm : st = stm := Except.ok.inj hfb
        rw [← hstm]
    rcases tryRailway_ok _ _ _ h3 with hbody | ⟨e2, hbody, hra, hfb⟩
    · rcases except_bind_ok _ _ _ hbody with ⟨templates, htf, hloop⟩
      obtain ⟨newT, hnew⟩ :=
        tmplLoop_templates_prefix o ws_id templates stm st1 hloop
      exact ⟨newT, by rw [hnew, htm]⟩
    · have hstm : stm = st1 := Except.ok.inj hfb
      exact ⟨[], by rw [← hstm, htm]; simp⟩
  · rw [if_neg ht] at hrest
    have hst : st = st1 := Except.ok.inj hrest
    exact ⟨[], by rw [← hst]; simp⟩

theorem wsLoop_templates_prefix (o : Oracle) (ws : List JVal) :
    ∀ st st', wsLoop o st ws = .ok st' →
      ∃ newT, st'.templates = st.templates ++ newT := by
  induction ws with
  | nil =>
    intro st st' h
    simp [wsLoop] at h
    rw [← h]
    exact ⟨[], by simp⟩
  | cons w rest ih =>
    intro st st' h
    rw [wsLoop] at h
    rcases except_bind_ok _ _ _ h with ⟨st1, h1, h2⟩
    obtain ⟨a, ha⟩ := wsBody_templates_prefix o st st1 w h1
    obtain ⟨b, hb⟩ := ih st1 st' h2
    exact ⟨a ++ b, by rw [hb, ha, List.append_assoc]⟩

theorem wsLoop_inv (o : Oracle) (ws : List JVal) :
    ∀ st st', wsLoop o st ws = .ok st' →
      (tmplIdsOf st'.templates).Nodup →
      assocKeys st.metrics ⊆ tmplIdsOf st.templates →
      (wsIdsOf ws).Nodup →
      (∀ i, i ∈ wsIdsOf ws → assocLookup st.referrals i = none) →
      TotalsInv st →
      TotalsInv st' := by
  induction ws with
  | nil =>
    intro st st' h _ _ _ _ hInv
    simp [wsLoop] at h
    rw [← h]
    exact hInv
  | cons w rest ih =>
    intro st st' h hNd hSub hNdW hFresh hInv
    rw [wsLoop] at h
    rcases except_bind_ok _ _ _ h with ⟨st1, h1, h2⟩
    obtain ⟨suffix, hsuf⟩ := wsLoop_templates_prefix o rest st1 st' h2
    have hNd1 : (tmplIdsOf st1.templates).Nodup := by
      rw [hsuf, tmplIdsOf_append] at hNd
      exact (List.nodup_append.1 hNd).1
    have hFreshW : ∀ i, idOf w = some i →
        assocLookup st.referrals i = none := by
      intro i hi
      apply hFresh
      simp [wsIdsOf, List.filterMap_cons, hi]
    obtain ⟨hInv1, hSub1, hrefshape⟩ :=
      wsBody_inv o st st1 w h1 hNd1 hSub hFreshW hInv
    have hNdW' : (wsIdsOf rest).Nodup := by
      cases hio : idOf w with
      | none => rw [wsIdsOf, List.filterMap_cons, hio] at hNdW; exact hNdW
      | some i =>
        rw [wsIdsOf, List.filterMap_cons, hio] at hNdW
        exact hNdW.of_cons
    have hFresh' : ∀ i, i ∈ wsIdsOf rest →
        assocLookup st1.referrals i = none := by
      intro i hi
      have hin : i ∈ wsIdsOf (w :: rest) := by
        rw [wsIdsOf, List.filterMap_cons]
        cases hio : idOf w with
        | none => exact hi
        | some j => exact List.mem_cons_of_mem j hi
      have hnone := hFresh i hin
      rcases hrefshape with hr | ⟨wid, info, hwid, hr⟩
      · rw [hr]
        exact hnone
      · have hne : wid ≠ i := by
          intro hEq
          rw [wsIdsOf, List.filterMap_cons, hwid] at hNdW
          have := (List.nodup_cons.1 hNdW).1
          rw [hEq] at this
          exact this hi
        rw [hr, assocLookup_append_right _ _ _ hnone]
        simp [assocLookup, JVal.beq_eq_false wid i hne]
    exact ih st1 st' h2 hNd hSub1 hNdW' hFresh' hInv1

/-- C3: for every snapshot returned by `async_get_all_data`, the earnings
totals equal the sums of the corresponding numeric fields over exactly the
successfully fetched branches captured in that same snapshot (missing
numeric fields count as zero, omitted branches are never counted), provided
the truthy workspace ids and truthy template ids of that poll carry no
duplicates. -/
theorem claim3_earnings_totals (o : Oracle) (snap : JVal)
    (refs mets : List (JVal × JVal)) (tms wsList : List JVal)
    (h : async_get_all_data o = .ok snap)
    (href : snap.lookD "referrals" .null = .obj refs)
    (htm : snap.lookD "templates" .null = .arr tms)
    (hmet : snap.lookD "template_metrics" .null = .obj mets)
    (hws : (snap.lookD "workspaces" .null).pyIter = .ok wsList)
    (hNdW : (wsIdsOf wsList).Nodup)
    (hNdT : (tmplIdsOf tms).Nodup) :
    snap.lookD "earnings" .null = .obj
      [(.str "templates_30d", .num ((mets.map met30Of).sum)),
       (.str "templates_total", .num ((mets.map metTotalOf).sum)),
       (.str "templates_payout", .num ((tms.map payoutOf).sum)),
       (.str "referrals_credited", .num ((refs.map refCreditOf).sum)),
       (.str "referrals_pending", .num ((refs.map refPendingOf).sum))] := by
  obtain ⟨pair, projects, deps, wsList', st, h1, h2, h3, h4, h5, hsnap⟩ :=
    async_get_all_data_ok o snap h
  subst hsnap
  have hrefs : refs = st.referrals := by
    simp [assembleSnap, JVal.lookD, assocLookup, JVal.beq] at href
    exact href.symm
  have htms : tms = st.templates := by
    simp [assembleSnap, JVal.lookD, assocLookup, JVal.beq] at htm
    exact htm.symm
  have hmets : mets = st.metrics := by
    simp [assembleSnap, JVal.lookD, assocLookup, JVal.beq] at hmet
    exact hmet.symm
  have hwsl : wsList = wsList' := by
    have hlk : (assembleSnap pair.1 pair.2 projects deps st).lookD
        "workspaces" .null = pair.2 := by
      simp [assembleSnap, JVal.lookD, assocLookup, JVal.beq]
    rw [hlk, h4] at hws
    exact (Except.ok.inj hws).symm
  have hfinal : TotalsInv st := by
    apply wsLoop_inv o wsList' initWsState st h5
    · rw [← htms]
      exact hNdT
    · simp [initWsState, assocKeys]
    · rw [← hwsl]
      exact hNdW
    · intro i _
      simp [initWsState, assocLookup]
    · simp [TotalsInv, initWsState]
  obtain ⟨i1, i2, i3, i4, i5⟩ := hfinal
  have hlk2 : (assembleSnap pair.1 pair.2 projects deps st).lookD
      "earnings" .null = earningsObj st := by
    simp [assembleSnap, JVal.lookD, assocLookup, JVal.beq]
  rw [hlk2, earningsObj, hmets, htms, hrefs, i1, i2, i3, i4, i5]


/-- Scenario B oracle: two workspaces `w1`, `w2`; referral info succeeds for
`w1` with 3 credited and 1 pending referral and fails with a 500 for `w2`;
both template lists are empty; there are no projects. -/
def oracleScenarioB : Oracle :=
  { meWithWorkspaces := .resp 200 "" (some (.obj [(.str "data", .obj [(.str
      "me", .obj [(.str "id", .str "u1"), (.str "workspaces", .arr [
        .obj [(.str "id", .str "w1")],
        .obj [(.str "id", .str "w2")]])])])]))
    meBasic := .resp 401 "" none
    projects := .resp 200 "" (some (.obj []))
    deployments := fun _ => .resp 401 "" none
    referralInfo := fun i =>
      if JVal.beq i (.str "w1") then
        .resp 200 "" (some (.obj [(.str "data", .obj [(.str "referralInfo",
          .obj [(.str "referralStats", .obj [(.str "credited", .num 3),
            (.str "pending", .num 1)])])])]))
      else .resp 500 "" none
    workspaceTemplates := fun _ => .resp 200 "" (some (.obj []))
    templateMetrics := fun _ => .resp 401 "" none }

/-- The referral info fetched for `w1` under `oracleScenarioB`. -/
def infoB : JVal :=
  .obj [(.str "referralStats", .obj [(.str "credited", .num 3),
    (.str "pending", .num 1)])]

/-- The two workspaces fetched under `oracleScenarioB`. -/
def wsB : List JVal :=
  [.obj [(.str "id", .str "w1")], .obj [(.str "id", .str "w2")]]

/-- The snapshot returned under `oracleScenarioB`: one referrals entry (for
`w1`), credited total 3 and pending total 1. -/
def snapB : JVal :=
  assembleSnap
    (.obj [(.str "id", .str "u1"), (.str "name", .null),
      (.str "email", .null)])
    (.arr wsB) [] []
    ⟨[(.str "w1", infoB)], [], [], 0, 0, 0, 3, 1⟩

theorem claim3_earnings_totals_witness :
    snapB.lookD "earnings" .null = .obj
      [(.str "templates_30d", .num 0),
       (.str "templates_total", .num 0),
       (.str "templates_payout", .num 0),
       (.str "referrals_credited", .num 3),
       (.str "referrals_pending", .num 1)] := by
  have hB : async_get_all_data oracleScenarioB = .ok snapB := by
    simp [snapB, wsB, infoB, async_get_all_data, allData_identity,
      allData_projects, async_get_me_with_workspaces, async_get_me,
      async_get_projects, async_get_referral_info,
      async_get_workspace_templates, depLoop, wsLoop, wsBody, tmplLoop,
      execute_query, tryRailway, JVal.pyGet, JVal.pyIter, JVal.pyIndex,
      JVal.truthy, assocLookup, assocSet, JVal.beq, oracleScenarioB,
      truncateBody, Bind.bind, Except.bind, List.mapM, List.mapM.loop,
      List.foldlM, Pure.pure, Except.pure, Err.isRailwayApiError,
      initWsState, assembleSnap, pyAddNum]
  have h := claim3_earnings_totals oracleScenarioB snapB
    [(.str "w1", infoB)] [] [] wsB hB
    (by simp [snapB, wsB, assembleSnap, JVal.lookD, assocLookup, JVal.beq])
    (by simp [snapB, wsB, assembleSnap, JVal.lookD, assocLookup, JVal.beq])
    (by simp [snapB, wsB, assembleSnap, JVal.lookD, assocLookup, JVal.beq])
    (by simp [snapB, wsB, assembleSnap, JVal.lookD, assocLookup, JVal.beq,
      JVal.pyIter])
    (by simp [wsB, wsIdsOf, idOf, JVal.pyGet, assocLookup, JVal.beq,
      JVal.truthy, List.filterMap_cons])
    (by simp [tmplIdsOf])
  simpa [refCreditOf, refPendingOf, infoB, JVal.lookD, assocLookup,
    JVal.beq, JVal.numOf] using h
